import Mathlib

/-!
Shallow embedding of src/src/casync.c: the synchronization driver that sits
between an archive encoder/decoder, a content-defined chunker, one writable
and N readable object stores, and an index.

Modelling conventions:
* Machine integers are `Nat`/`Int`; byte buffers are `List Byte` with
  `Byte := Nat`.
* Each C function that returns an `int` error code and mutates the
  `CaSync*` becomes a Lean function returning `Except CErr α × CaSync σ`
  (the driver state is threaded explicitly; on error the partially
  mutated state is returned, as in C).
* Collaborators declared out of scope by the design (encoder, decoder,
  chunker, store, index, libgcrypt, the OS) are represented by oracles:
  the encoder and decoder by scripts of the results their `step` calls
  will produce, the chunker by an abstract state machine
  `scan : σ → List Byte → Option Nat × σ`, stores and index-operation
  outcomes by functions, SHA-256 by an abstract `H : List Byte → ObjectID`.
  OS writes (`loop_write`, `rename`, temp-file creation) are modelled as
  succeeding; collaborator failures enter through the store/index/encoder
  oracles, which is where the claims need them.
* Observable effects of the driver are logged in the state: bytes written
  through the archive descriptor (`archive_file`), successful store puts
  in order (`store_puts`), successful index operations in order
  (`CaIndex.ops`), whether a file exists at the configured output paths
  (`fs_file_at_archive_path`, `fs_file_at_base_path`), and whether the
  driver ever passed a freed allocation to a sink (`use_after_free`).
-/

set_option autoImplicit false

namespace Casync

abbrev Byte := Nat

/-- An ObjectID is the 32-byte SHA-256 of a chunk; digest values are kept
abstract as the byte list produced by the hash oracle `H`. -/
abbrev ObjectID := List Byte

/-- Error codes returned (negated) by the C functions. -/
inductive CErr where
  | einval | ebusy | enomem | epipe | ebadmsg | enoent | enotty
  | eunatch | erofs | eio | enospc | eexist | enotdir | enodata
  | assertFailed

/-- Public step outcomes: CA_SYNC_STEP, CA_SYNC_NEXT_FILE, CA_SYNC_FINISHED. -/
inductive CaSyncResult where
  | step
  | next_file
  | finished

inductive CaDirection where
  | encode
  | decode
  deriving DecidableEq

/-- Result of a store lookup, per the store contract of the design (§6):
bytes, not-found, or another error. -/
inductive CaStoreGetResult where
  | found (b : List Byte)
  | notFound
  | fail (e : CErr)

/-- Modelled from the spec: castore.c is not under src/. Per §6 a store is a
content-addressed blob repository; `get` returns bytes, not-found or an
error, `put` returns OK or an error. The store is an oracle: its behaviour
is a function of the requested id (and payload). -/
structure CaStore where
  get : ObjectID → CaStoreGetResult
  put : ObjectID → List Byte → Except CErr Unit

/-- Write-side index operations, in the order the driver issues them. -/
inductive CaIndexOp where
  | object (id : ObjectID) (size : Nat)
  | digest (d : ObjectID)
  | eof_rec
  | closed

/-- Result of `ca_index_read_object`: a record, EOF, or an error. -/
inductive CaIndexReadResult where
  | record (id : ObjectID) (size : Nat)
  | eofMark
  | fail (e : CErr)

/-- Modelled from the spec: caindex.c is not under src/. Per §6 the write
side exposes `open`, `write_object(id, size)`, `set_digest`, `write_eof`,
`close`; the read side `open` and `read_object → (id,size) | EOF`. `wres`
is the collaborator's outcome oracle for each write-side operation; `ops`
logs the operations that succeeded, in order; `reads` is the read-side
script. `ca_index_open` is idempotent and modelled as succeeding. -/
structure CaIndex where
  wres : CaIndexOp → Except CErr Unit
  opened : Bool
  ops : List CaIndexOp
  reads : List CaIndexReadResult

/-- One outcome of `ca_encoder_step` together with the bytes that
`ca_encoder_get_data` would then hand out. -/
inductive CaEncoderResult where
  | finished
  | next_file (p : List Byte)
  | data (p : List Byte)
  | fail (e : CErr)

/-- Modelled from the spec: caencoder.c is not under src/. The encoder is
an oracle script of the results its successive `step` calls produce. -/
structure CaEncoder where
  script : List CaEncoderResult

inductive CaDecoderResult where
  | finished
  | next_file
  | dstep
  | payload
  | request
  | fail (e : CErr)

/-- Modelled from the spec: cadecoder.c is not under src/. `script` is the
oracle of `ca_decoder_step` results; `fed` logs the chunk payloads handed
over via `ca_decoder_put_data`, `fed_fd` whether `ca_decoder_put_data_fd`
was used, `eof_sent` whether `ca_decoder_put_eof` was called. -/
structure CaDecoder where
  script : List CaDecoderResult
  fed : List (List Byte)
  fed_fd : Bool
  eof_sent : Bool

/-- The `base_mode` file kinds accepted by `ca_sync_set_base_mode`:
regular file, directory or block device (`(mode_t) -1` is `none`). -/
inductive CaBaseMode where
  | reg
  | dir
  | blk

/-- The driver state, mirroring `struct CaSync`. `σ` is the chunker's
rolling state. Option-valued descriptors model the `-1` sentinel; the
archive digest is the list of bytes absorbed so far (`none` while the
gcrypt handle is unallocated). `enc_behavior`/`dec_behavior` hold the
scripts the encoder/decoder constructed at `start` will follow. -/
structure CaSync (σ : Type) where
  direction : CaDirection
  encoder : Option CaEncoder
  decoder : Option CaDecoder
  enc_behavior : List CaEncoderResult
  dec_behavior : List CaDecoderResult
  wstore : Option CaStore
  rstores : List CaStore
  chunker : σ
  base_fd : Option Int
  archive_fd : Option Int
  base_path : Option String
  archive_path : Option String
  temporary_base_path : Option String
  temporary_archive_path : Option String
  base_mode : Option CaBaseMode
  make_perm_mode : Option Nat
  buffer : List Byte
  archive_digest : Option (List Byte)
  index : Option CaIndex
  eof : Bool
  archive_file : List Byte
  store_puts : List (ObjectID × List Byte)
  fs_file_at_archive_path : Bool
  fs_file_at_base_path : Bool
  use_after_free : Bool

/-- ca_sync_new (casync.c:53): the empty driver; descriptors at the `-1`
sentinel, modes at `(mode_t) -1`, everything else zeroed. The chunker
seed and the collaborator behaviour scripts parameterize the model. -/
def ca_sync_new {σ : Type} (dir : CaDirection) (c0 : σ)
    (encb : List CaEncoderResult) (decb : List CaDecoderResult) : CaSync σ :=
  { direction := dir
    encoder := none
    decoder := none
    enc_behavior := encb
    dec_behavior := decb
    wstore := none
    rstores := []
    chunker := c0
    base_fd := none
    archive_fd := none
    base_path := none
    archive_path := none
    temporary_base_path := none
    temporary_archive_path := none
    base_mode := none
    make_perm_mode := none
    buffer := []
    archive_digest := none
    index := none
    eof := false
    archive_file := []
    store_puts := []
    fs_file_at_archive_path := false
    fs_file_at_base_path := false
    use_after_free := false }

/-- ca_sync_new_encode (casync.c:67). -/
def ca_sync_new_encode {σ : Type} (c0 : σ) (encb : List CaEncoderResult) :
    CaSync σ :=
  ca_sync_new .encode c0 encb []

/-- ca_sync_new_decode (casync.c:78). -/
def ca_sync_new_decode {σ : Type} (c0 : σ) (decb : List CaDecoderResult) :
    CaSync σ :=
  ca_sync_new .decode c0 [] decb

/-- Outcome of `open(path, O_RDONLY|…|O_DIRECTORY)`: the ENOTDIR failure is
distinguished because `ca_sync_set_base_path` branches on it. -/
inductive CaOpenDirResult where
  | opened (fd : Int)
  | failNotDir
  | fail (e : CErr)

/-- Filesystem oracle consulted by the path setters (the OS is a
collaborator): `open_dir` is the `O_DIRECTORY` open, `open_rd` the plain
read-only open. Returned descriptors are nonnegative. -/
structure World where
  open_dir : String → CaOpenDirResult
  open_rd : String → Except CErr Int

/-- ca_sync_set_base_fd (casync.c:190). -/
def ca_sync_set_base_fd {σ : Type} (s : CaSync σ) (fd : Int) :
    Except CErr Unit × CaSync σ :=
  if fd < 0 then (.error .einval, s)
  else if s.base_fd.isSome then (.error .ebusy, s)
  else if s.base_mode.isSome then (.error .ebusy, s)
  else if s.base_path.isSome then (.error .ebusy, s)
  else (.ok (), { s with base_fd := some fd })

/-- ca_sync_set_base_path (casync.c:207): tries an `O_DIRECTORY` open; in
ENCODE mode an ENOTDIR failure falls back to a plain open, any other
failure is returned; in DECODE mode any failure stores the path for the
lazy start. -/
def ca_sync_set_base_path {σ : Type} (s : CaSync σ) (w : World)
    (path : String) : Except CErr Unit × CaSync σ :=
  if s.base_fd.isSome then (.error .ebusy, s)
  else if s.base_path.isSome then (.error .ebusy, s)
  else
    match w.open_dir path with
    | .opened fd => (.ok (), { s with base_fd := some fd })
    | .failNotDir =>
      if s.direction = .encode then
        match w.open_rd path with
        | .error e => (.error e, s)
        | .ok fd => (.ok (), { s with base_fd := some fd })
      else (.ok (), { s with base_path := some path })
    | .fail e =>
      if s.direction = .encode then (.error e, s)
      else (.ok (), { s with base_path := some path })

/-- ca_sync_set_base_mode (casync.c:257); the `CaBaseMode` type only
represents the accepted regular/directory/block kinds, so the EINVAL and
ENOTTY argument checks on malformed modes are not reachable here. -/
def ca_sync_set_base_mode {σ : Type} (s : CaSync σ) (m : CaBaseMode) :
    Except CErr Unit × CaSync σ :=
  if s.direction = .encode then (.error .enotty, s)
  else if s.base_fd.isSome then (.error .ebusy, s)
  else if s.base_mode.isSome then (.error .ebusy, s)
  else (.ok (), { s with base_mode := some m })

/-- ca_sync_set_archive_fd (casync.c:276). -/
def ca_sync_set_archive_fd {σ : Type} (s : CaSync σ) (fd : Int) :
    Except CErr Unit × CaSync σ :=
  if fd < 0 then (.error .einval, s)
  else if s.archive_fd.isSome then (.error .ebusy, s)
  else if s.archive_path.isSome then (.error .ebusy, s)
  else (.ok (), { s with archive_fd := some fd })

/-- ca_sync_set_archive_path (casync.c:291): in ENCODE mode the path is
only recorded (creation is deferred to `start`); in DECODE mode the
archive is opened read-only immediately. -/
def ca_sync_set_archive_path {σ : Type} (s : CaSync σ) (w : World)
    (path : String) : Except CErr Unit × CaSync σ :=
  if s.archive_fd.isSome then (.error .ebusy, s)
  else if s.archive_path.isSome then (.error .ebusy, s)
  else if s.direction = .encode then
    (.ok (), { s with archive_path := some path })
  else
    match w.open_rd path with
    | .error e => (.error e, s)
    | .ok fd => (.ok (), { s with archive_fd := some fd })

/-- Collaborator behaviour of a freshly created index object: the
write-operation outcome oracle and the read-side script. -/
structure CaIndexBehavior where
  wres : CaIndexOp → Except CErr Unit
  reads : List CaIndexReadResult

/-- ca_sync_allocate_index (casync.c:129): fails busy once an index is
set; otherwise creates the (write- or read-mode) index object with the
given collaborator behaviour. -/
def ca_sync_allocate_index {σ : Type} (s : CaSync σ) (b : CaIndexBehavior) :
    Except CErr Unit × CaSync σ :=
  if s.index.isSome then (.error .ebusy, s)
  else (.ok (), { s with index := some ⟨b.wres, false, [], b.reads⟩ })

/-- ca_sync_set_index_fd (casync.c:148); `ca_index_set_fd` itself is
modelled as succeeding. The index-file content/behaviour oracle `b` stands
for what the descriptor refers to. -/
def ca_sync_set_index_fd {σ : Type} (s : CaSync σ) (fd : Int)
    (b : CaIndexBehavior) : Except CErr Unit × CaSync σ :=
  if fd < 0 then (.error .einval, s)
  else ca_sync_allocate_index s b

/-- ca_sync_set_index_path (casync.c:169); `ca_index_set_path` is modelled
as succeeding. -/
def ca_sync_set_index_path {σ : Type} (s : CaSync σ) (_path : String)
    (b : CaIndexBehavior) : Except CErr Unit × CaSync σ :=
  ca_sync_allocate_index s b

/-- Modelled from the spec: `ca_store_get` on the possibly-NULL writable
store slot. Per §4.5 the fan-in proceeds to the seed stores when the
writable store does not hold the object, so an absent writable store
reports not-found. -/
def ca_store_get_opt (o : Option CaStore) (id : ObjectID) : CaStoreGetResult :=
  match o with
  | none => .notFound
  | some st => st.get id

/-- The seed-store cascade of ca_sync_get (casync.c:848-852). -/
def ca_sync_get_rstores : List CaStore → ObjectID → Except CErr (List Byte)
  | [], _ => .error .enoent
  | st :: rest, id =>
    match st.get id with
    | .found b => .ok b
    | .fail e => .error e
    | .notFound => ca_sync_get_rstores rest id

/-- ca_sync_get (casync.c:831): writable store first, then each seed store
in registration order; the first result other than not-found is returned
unchanged; not-found if all stores miss. -/
def ca_sync_get {σ : Type} (s : CaSync σ) (id : ObjectID) :
    Except CErr (List Byte) :=
  match ca_store_get_opt s.wstore id with
  | .found b => .ok b
  | .fail e => .error e
  | .notFound => ca_sync_get_rstores s.rstores id

/-- The cascade described by the spec's words (§4.5): "the first that is
not not-found wins and its result (success or other error) is returned
unchanged. If every store reports not-found, the overall result is
not-found." Stated over the list of individual store results, writable
store first. Used only to compare `ca_sync_get` against the spec. -/
def spec_store_cascade : List CaStoreGetResult → Except CErr (List Byte)
  | [] => .error .enoent
  | .found b :: _ => .ok b
  | .fail e :: _ => .error e
  | .notFound :: rest => spec_store_cascade rest

/-- ca_sync_make_object_id (casync.c:871): SHA-256 of the payload. The C
keeps a cached gcrypt handle that is reset before every use, so the
result is a pure function of the bytes; `H` is the SHA-256 oracle. -/
def ca_sync_make_object_id (H : List Byte → ObjectID) (p : List Byte) :
    ObjectID := H p

/-- ca_sync_write_archive (casync.c:482): a no-op without an archive
descriptor, otherwise `loop_write` of all bytes (modelled as
succeeding). -/
def ca_sync_write_archive {σ : Type} (s : CaSync σ) (p : List Byte) :
    CaSync σ :=
  match s.archive_fd with
  | none => s
  | some _ => { s with archive_file := s.archive_file ++ p }

/-- ca_sync_allocate_archive_digest (casync.c:505): lazily opens the
archive SHA-256 accumulator; a fresh accumulator has absorbed no bytes. -/
def ca_sync_allocate_archive_digest {σ : Type} (s : CaSync σ) : CaSync σ :=
  match s.archive_digest with
  | some _ => s
  | none => { s with archive_digest := some [] }

/-- ca_sync_write_archive_digest (casync.c:521): allocate if needed, then
absorb the bytes (gcry_md_write). -/
def ca_sync_write_archive_digest {σ : Type} (s : CaSync σ) (p : List Byte) :
    CaSync σ :=
  let s1 := ca_sync_allocate_archive_digest s
  { s1 with archive_digest := s1.archive_digest.map (fun d => d ++ p) }

/-- One write-side index operation: ask the collaborator oracle for the
outcome and log the operation on success. -/
def ca_index_write_op (idx : CaIndex) (op : CaIndexOp) :
    Except CErr Unit × CaIndex :=
  match idx.wres op with
  | .error e => (.error e, idx)
  | .ok _ => (.ok (), { idx with ops := idx.ops ++ [op] })

/-- ca_index_read_object (read side): consume the next scripted result.
An exhausted script is a modelling artifact (the real collaborator keeps
answering) and yields an error. -/
def ca_index_read_object (idx : CaIndex) :
    Except CErr (Option (ObjectID × Nat)) × CaIndex :=
  match idx.reads with
  | [] => (.error .eio, idx)
  | .fail e :: rest => (.error e, { idx with reads := rest })
  | .eofMark :: rest => (.ok none, { idx with reads := rest })
  | .record id sz :: rest => (.ok (some (id, sz)), { idx with reads := rest })

/-- ca_sync_write_one_chunk (casync.c:535): hash the payload, put it to
the writable store, and append `(id, size)` to the index if one is
configured. The callers only invoke this with a writable store
configured; `ca_store_put` on the NULL store is modelled as EINVAL. -/
def ca_sync_write_one_chunk {σ : Type} (H : List Byte → ObjectID)
    (s : CaSync σ) (p : List Byte) : Except CErr Unit × CaSync σ :=
  let id := ca_sync_make_object_id H p
  match s.wstore with
  | none => (.error .einval, s)
  | some w =>
    match w.put id p with
    | .error e => (.error e, s)
    | .ok _ =>
      let s1 := { s with store_puts := s.store_puts ++ [(id, p)] }
      match s1.index with
      | none => (.ok (), s1)
      | some idx =>
        match ca_index_write_op idx (.object id p.length) with
        | (.error e, idx2) => (.error e, { s1 with index := some idx2 })
        | (.ok _, idx2) => (.ok (), { s1 with index := some idx2 })

/-- The `while (l > 0)` loop of ca_sync_write_chunks (casync.c:565-595).
Each iteration scans the input with the chunker; on "no boundary" the
input is appended to the pending buffer; on a cut at `k` the payload
`buffer ++ input[0..k)` (zero-copy from the input when the buffer is
empty) is written as one chunk, the buffer emptied and the input advanced
by `k`. Structural recursion on a fuel bound: the content-defined chunker
reports cut positions in `(0, l]`, so `l + 1` fuel always suffices;
exhausted fuel models the non-terminating C loop a cut at position 0
would cause and is unreachable for the real chunker. -/
def ca_sync_write_chunks_loop {σ : Type}
    (scan : σ → List Byte → Option Nat × σ) (H : List Byte → ObjectID) :
    Nat → CaSync σ → List Byte → Except CErr Unit × CaSync σ
  | 0, s, _ => (.error .einval, s)
  | fuel + 1, s, p =>
    if p = [] then (.ok (), s)
    else
      match scan s.chunker p with
      | (none, c2) => (.ok (), { s with chunker := c2, buffer := s.buffer ++ p })
      | (some k, c2) =>
        let s1 := { s with chunker := c2 }
        let payload := s1.buffer ++ p.take k
        let s2 := if s1.buffer = [] then s1 else { s1 with buffer := payload }
        match ca_sync_write_one_chunk H s2 payload with
        | (.error e, s3) => (.error e, s3)
        | (.ok _, s3) =>
          ca_sync_write_chunks_loop scan H fuel
            { s3 with buffer := [] } (p.drop k)

/-- ca_sync_write_chunks (casync.c:556): a no-op without a writable
store. -/
def ca_sync_write_chunks {σ : Type}
    (scan : σ → List Byte → Option Nat × σ) (H : List Byte → ObjectID)
    (s : CaSync σ) (p : List Byte) : Except CErr Unit × CaSync σ :=
  match s.wstore with
  | none => (.ok (), s)
  | some _ => ca_sync_write_chunks_loop scan H (p.length + 1) s p

/-- ca_sync_write_final_chunk (casync.c:600): a no-op without a writable
store or with an empty pending buffer; otherwise the buffer tail is
written as one chunk and, if an index is configured, the index is
finalized: the archive digest is read out, `set_digest`, the EOF record,
and `close` are issued. -/
def ca_sync_write_final_chunk {σ : Type} (H : List Byte → ObjectID)
    (s : CaSync σ) : Except CErr Unit × CaSync σ :=
  match s.wstore with
  | none => (.ok (), s)
  | some _ =>
    if s.buffer = [] then (.ok (), s)
    else
      match ca_sync_write_one_chunk H s s.buffer with
      | (.error e, s1) => (.error e, s1)
      | (.ok _, s1) =>
        match s1.index with
        | none => (.ok (), s1)
        | some idx =>
          let s2 := ca_sync_allocate_archive_digest s1
          let d := H (s2.archive_digest.getD [])
          match ca_index_write_op idx (.digest d) with
          | (.error e, idx2) => (.error e, { s2 with index := some idx2 })
          | (.ok _, idx2) =>
            match ca_index_write_op idx2 .eof_rec with
            | (.error e, idx3) => (.error e, { s2 with index := some idx3 })
            | (.ok _, idx3) =>
              match ca_index_write_op idx3 .closed with
              | (.error e, idx4) => (.error e, { s2 with index := some idx4 })
              | (.ok _, idx4) => (.ok (), { s2 with index := some idx4 })

/-- The common CA_ENCODER_NEXT_FILE / CA_ENCODER_DATA block of
ca_sync_step_encode (casync.c:676-695): tee the bytes into the archive
file, the archive digest and the chunker sink, in that order. -/
def ca_sync_encode_feed {σ : Type}
    (scan : σ → List Byte → Option Nat × σ) (H : List Byte → ObjectID)
    (s : CaSync σ) (p : List Byte) : Except CErr Unit × CaSync σ :=
  let s1 := ca_sync_write_archive s p
  let s2 := ca_sync_write_archive_digest s1 p
  ca_sync_write_chunks scan H s2 p

/-- ca_sync_step_encode (casync.c:642): fail broken-pipeline after eof;
otherwise pull one encoder result. On FINISHED: rename the temporary
archive onto its target (when both paths are set), flush the final chunk,
latch eof. On DATA/NEXT_FILE: tee the bytes. `rename` is modelled as
succeeding; an absent encoder is the C `assert(false)`. -/
def ca_sync_step_encode {σ : Type}
    (scan : σ → List Byte → Option Nat × σ) (H : List Byte → ObjectID)
    (s : CaSync σ) : Except CErr CaSyncResult × CaSync σ :=
  if s.eof then (.error .epipe, s)
  else
    match s.encoder with
    | none => (.error .assertFailed, s)
    | some enc =>
      match enc.script with
      | [] => (.error .eio, s)
      | .fail e :: rest => (.error e, { s with encoder := some ⟨rest⟩ })
      | .finished :: rest =>
        let s1 := { s with encoder := some ⟨rest⟩ }
        let s2 :=
          if s1.temporary_archive_path.isSome && s1.archive_path.isSome then
            { s1 with temporary_archive_path := none,
                      fs_file_at_archive_path := true }
          else s1
        match ca_sync_write_final_chunk H s2 with
        | (.error e, s3) => (.error e, s3)
        | (.ok _, s3) => (.ok .finished, { s3 with eof := true })
      | .data p :: rest =>
        let s1 := { s with encoder := some ⟨rest⟩ }
        match ca_sync_encode_feed scan H s1 p with
        | (.error e, s2) => (.error e, s2)
        | (.ok _, s2) => (.ok .step, s2)
      | .next_file p :: rest =>
        let s1 := { s with encoder := some ⟨rest⟩ }
        match ca_sync_encode_feed scan H s1 p with
        | (.error e, s2) => (.error e, s2)
        | (.ok _, s2) => (.ok .next_file, s2)

/-- ca_sync_process_decoder_request (casync.c:709). Index-driven path:
read the next record; on EOF tell the decoder EOF; otherwise resolve the
id through the store fan-in, fail bad-message when the index-declared
size disagrees with the object's size (the bytes are freed, not handed
over), else hand the bytes to the decoder, free them, and only then feed
the same (now dangling) pointer to the archive digest — the model logs
this in `use_after_free` and absorbs the old contents, which on real
memory are undefined. Without an index the decoder is given the archive
descriptor; with neither, ENOTTY. -/
def ca_sync_process_decoder_request {σ : Type} (s : CaSync σ) :
    Except CErr Unit × CaSync σ :=
  match s.index with
  | some idx =>
    match ca_index_read_object idx with
    | (.error e, idx2) => (.error e, { s with index := some idx2 })
    | (.ok none, idx2) =>
      match s.decoder with
      | none => (.error .einval, { s with index := some idx2 })
      | some dec =>
        (.ok (), { s with index := some idx2,
                          decoder := some { dec with eof_sent := true } })
    | (.ok (some (id, index_size)), idx2) =>
      let s1 := { s with index := some idx2 }
      match ca_sync_get s1 id with
      | .error e => (.error e, s1)
      | .ok p =>
        if index_size ≠ p.length then (.error .ebadmsg, s1)
        else
          match s1.decoder with
          | none => (.error .einval, s1)
          | some dec =>
            let s2 := { s1 with decoder := some { dec with fed := dec.fed ++ [p] } }
            let s3 := ca_sync_write_archive_digest s2 p
            (.ok (), { s3 with use_after_free := true })
  | none =>
    match s.archive_fd with
    | some _ =>
      match s.decoder with
      | none => (.error .einval, s)
      | some dec => (.ok (), { s with decoder := some { dec with fed_fd := true } })
    | none => (.error .enotty, s)

/-- ca_sync_step_decode (casync.c:763): fail broken-pipeline after eof;
otherwise pull one decoder result. On FINISHED: rename the temporary base
onto its target (when both are set) and latch eof; REQUEST is served by
`ca_sync_process_decoder_request`; an absent decoder is ENOTTY. -/
def ca_sync_step_decode {σ : Type} (s : CaSync σ) :
    Except CErr CaSyncResult × CaSync σ :=
  if s.eof then (.error .epipe, s)
  else
    match s.decoder with
    | none => (.error .enotty, s)
    | some dec =>
      match dec.script with
      | [] => (.error .eio, s)
      | .fail e :: rest =>
        (.error e, { s with decoder := some { dec with script := rest } })
      | .finished :: rest =>
        let s1 := { s with decoder := some { dec with script := rest } }
        let s2 :=
          if s1.temporary_base_path.isSome && s1.base_path.isSome then
            { s1 with temporary_base_path := none, fs_file_at_base_path := true }
          else s1
        (.ok .finished, { s2 with eof := true })
      | .next_file :: rest =>
        (.ok .next_file, { s with decoder := some { dec with script := rest } })
      | .dstep :: rest =>
        (.ok .step, { s with decoder := some { dec with script := rest } })
      | .payload :: rest =>
        (.ok .step, { s with decoder := some { dec with script := rest } })
      | .request :: rest =>
        let s1 := { s with decoder := some { dec with script := rest } }
        match ca_sync_process_decoder_request s1 with
        | (.error e, s2) => (.error e, s2)
        | (.ok _, s2) => (.ok .step, s2)

/-- Phase (b) of ca_sync_start (casync.c:394-410): in ENCODE mode, on
first use, construct the encoder and hand it the base descriptor; the
driver's own slot is cleared (ownership transfer). EUNATCH without a
base. `ca_encoder_set_base_fd` is modelled as succeeding. -/
def ca_sync_start_encoder {σ : Type} (s : CaSync σ) :
    Except CErr Unit × CaSync σ :=
  match s.direction, s.encoder with
  | .encode, none =>
    match s.base_fd with
    | none => (.error .eunatch, s)
    | some _ =>
      (.ok (), { s with encoder := some ⟨s.enc_behavior⟩, base_fd := none })
  | _, _ => (.ok (), s)

/-- Tail of phase (c) of ca_sync_start (casync.c:451-470): construct the
decoder and hand it either the base descriptor (ownership transfer) or
the base mode; EUNATCH with neither. -/
def ca_sync_finish_decoder {σ : Type} (s : CaSync σ) :
    Except CErr Unit × CaSync σ :=
  match s.base_fd with
  | some _ =>
    (.ok (), { s with decoder := some ⟨s.dec_behavior, [], false, false⟩,
                      base_fd := none })
  | none =>
    match s.base_mode with
    | none => (.error .eunatch, s)
    | some _ =>
      (.ok (), { s with decoder := some ⟨s.dec_behavior, [], false, false⟩ })

/-- Phase (c) of ca_sync_start (casync.c:412-471): in DECODE mode, on
first use, materialize the base when only `base_path` (plus `base_mode`)
is configured — create/open a directory, create a temporary regular file
next to the target, or open a block device for writing — then construct
the decoder. OS creation calls are modelled as succeeding. -/
def ca_sync_start_decoder {σ : Type} (s : CaSync σ) :
    Except CErr Unit × CaSync σ :=
  match s.direction, s.decoder with
  | .decode, none =>
    match s.base_fd, s.base_path with
    | none, some bp =>
      match s.base_mode with
      | none => (.error .eunatch, s)
      | some .dir => ca_sync_finish_decoder { s with base_fd := some 1001 }
      | some .reg =>
        ca_sync_finish_decoder
          { s with temporary_base_path := some (bp ++ ".tmp"),
                   base_fd := some 1002 }
      | some .blk => ca_sync_finish_decoder { s with base_fd := some 1003 }
    | _, _ => ca_sync_finish_decoder s
  | _, _ => (.ok (), s)

/-- Phase (d) of ca_sync_start (casync.c:473-477): open the index if one
is configured; `ca_index_open` is idempotent and modelled as
succeeding. -/
def ca_sync_start_index {σ : Type} (s : CaSync σ) : CaSync σ :=
  match s.index with
  | none => s
  | some idx => if idx.opened then s else { s with index := some { idx with opened := true } }

/-- Phase (a) of ca_sync_start (casync.c:379-392): in ENCODE mode with an
`archive_path` but no descriptor, create the temporary sibling
(random-suffix name and exclusive creation modelled as a deterministic
".tmp" sibling that opens successfully) and keep its descriptor as the
archive descriptor. -/
def ca_sync_start_phase_a {σ : Type} (s0 : CaSync σ) : CaSync σ :=
  if s0.direction = .encode ∧ s0.archive_path.isSome ∧ s0.archive_fd = none
  then
    { s0 with
      temporary_archive_path := s0.archive_path.map (fun p => p ++ ".tmp"),
      archive_fd := some 1000 }
  else s0

/-- ca_sync_start (casync.c:374): idempotent, run before every step: the
temporary-archive phase, the encoder/decoder construction phases and the
index open. -/
def ca_sync_start {σ : Type} (s0 : CaSync σ) : Except CErr Unit × CaSync σ :=
  match ca_sync_start_encoder (ca_sync_start_phase_a s0) with
  | (.error e, s1) => (.error e, s1)
  | (.ok _, s1) =>
    match ca_sync_start_decoder s1 with
    | (.error e, s2) => (.error e, s2)
    | (.ok _, s2) => (.ok (), ca_sync_start_index s2)

/-- ca_sync_step (casync.c:813): run the lazy start, then delegate by
direction. -/
def ca_sync_step {σ : Type}
    (scan : σ → List Byte → Option Nat × σ) (H : List Byte → ObjectID)
    (s : CaSync σ) : Except CErr CaSyncResult × CaSync σ :=
  match ca_sync_start s with
  | (.error e, s1) => (.error e, s1)
  | (.ok _, s1) =>
    match s1.direction with
    | .encode => ca_sync_step_encode scan H s1
    | .decode => ca_sync_step_decode s1

/-- ca_sync_get_digest (casync.c:901): busy before the eof latch;
afterwards lazily allocate the archive digest if none exists and read out
its current value (SHA-256 of the absorbed byte stream, `H []` for a
fresh accumulator). -/
def ca_sync_get_digest {σ : Type} (H : List Byte → ObjectID)
    (s : CaSync σ) : Except CErr ObjectID × CaSync σ :=
  if s.eof then
    let s1 := ca_sync_allocate_archive_digest s
    (.ok (H (s1.archive_digest.getD [])), s1)
  else (.error .ebusy, s)

/-- The caller-driven step loop: step until FINISHED, with fuel; `none`
when an error occurs or the fuel runs out first. Returns the state after
the FINISHED step. -/
def ca_sync_run_until_finished {σ : Type}
    (scan : σ → List Byte → Option Nat × σ) (H : List Byte → ObjectID) :
    Nat → CaSync σ → Option (CaSync σ)
  | 0, _ => none
  | fuel + 1, s =>
    match ca_sync_step scan H s with
    | (.ok .finished, s1) => some s1
    | (.ok _, s1) => ca_sync_run_until_finished scan H fuel s1
    | (.error _, _) => none

/-- Concatenation of a list of byte buffers. -/
def bytesConcat : List (List Byte) → List Byte
  | [] => []
  | x :: xs => x ++ bytesConcat xs

/-- Concatenation of the payloads submitted to the writable store, in
submission (= index) order. -/
def chunkConcat {σ : Type} (s : CaSync σ) : List Byte :=
  bytesConcat (s.store_puts.map Prod.snd)

/-- The byte stream absorbed into the archive digest so far (the archive
byte stream of the run, since the digest sink receives every byte). -/
def digestStream {σ : Type} (s : CaSync σ) : List Byte :=
  s.archive_digest.getD []

/-- What the chunker sink has absorbed: emitted chunks plus the pending
buffer. -/
def chunkSink {σ : Type} (s : CaSync σ) : List Byte :=
  chunkConcat s ++ s.buffer

/-- The write-side index operation log. -/
def indexOps {σ : Type} (s : CaSync σ) : List CaIndexOp :=
  match s.index with
  | none => []
  | some idx => idx.ops

/-- A state on which the (idempotent) lazy start is a successful no-op:
holds after any successful step. -/
def IsStarted {σ : Type} (s : CaSync σ) : Prop :=
  ca_sync_start s = (.ok (), s)

/-- The post-start shape of a driver: the encoder/decoder demanded by its
direction exists, the archive output (if configured by path in ENCODE
mode) has been opened, and the index has been opened. Every successful
step leaves the driver in this shape, and on this shape the lazy start is
a successful no-op. -/
def Started {σ : Type} (s : CaSync σ) : Prop :=
  (s.direction = .encode →
     s.encoder.isSome = true ∧
     (s.archive_path.isSome = true → s.archive_fd.isSome = true)) ∧
  (s.direction = .decode → s.decoder.isSome = true) ∧
  (∀ idx, s.index = some idx → idx.opened = true)

/-- The driver-state fields that none of the chunk-writing and
request-serving helpers touch. -/
structure PipeFrame {σ : Type} (s s' : CaSync σ) : Prop where
  f1 : s'.direction = s.direction
  f2 : s'.encoder = s.encoder
  f3 : s'.decoder.isSome = s.decoder.isSome
  f4 : s'.wstore = s.wstore
  f5 : s'.rstores = s.rstores
  f6 : s'.archive_fd = s.archive_fd
  f7 : s'.archive_path = s.archive_path
  f8 : s'.temporary_archive_path = s.temporary_archive_path
  f9 : s'.eof = s.eof
  f10 : s'.fs_file_at_archive_path = s.fs_file_at_archive_path
  f11 : s'.index.map CaIndex.opened = s.index.map CaIndex.opened

/-- Field record for the postcondition of ca_sync_start_phase_a_spec. -/
structure PhaseASpec {σ : Type} (s : CaSync σ) : Prop where
  f1 : (ca_sync_start_phase_a s).direction = s.direction
  f2 : (ca_sync_start_phase_a s).wstore = s.wstore
  f3 : (ca_sync_start_phase_a s).rstores = s.rstores
  f4 : (ca_sync_start_phase_a s).chunker = s.chunker
  f5 : (ca_sync_start_phase_a s).buffer = s.buffer
  f6 : (ca_sync_start_phase_a s).store_puts = s.store_puts
  f7 : (ca_sync_start_phase_a s).archive_digest = s.archive_digest
  f8 : (ca_sync_start_phase_a s).eof = s.eof
  f9 : (ca_sync_start_phase_a s).archive_file = s.archive_file
  f10 : (ca_sync_start_phase_a s).fs_file_at_archive_path =
    s.fs_file_at_archive_path
  f11 : (ca_sync_start_phase_a s).fs_file_at_base_path = s.fs_file_at_base_path
  f12 : (ca_sync_start_phase_a s).use_after_free = s.use_after_free
  f13 : (ca_sync_start_phase_a s).index = s.index
  f14 : (ca_sync_start_phase_a s).encoder = s.encoder
  f15 : (ca_sync_start_phase_a s).decoder = s.decoder

/-- Field record for the postcondition of ca_sync_start_encoder_spec. -/
structure StartEncoderSpec {σ : Type} (s : CaSync σ) (r : Except CErr Unit) (s1 : CaSync σ) : Prop where
  f1 : s1.direction = s.direction
  f2 : s1.wstore = s.wstore
  f3 : s1.rstores = s.rstores
  f4 : s1.chunker = s.chunker
  f5 : s1.buffer = s.buffer
  f6 : s1.store_puts = s.store_puts
  f7 : s1.archive_digest = s.archive_digest
  f8 : s1.index = s.index
  f9 : s1.eof = s.eof
  f10 : s1.archive_file = s.archive_file
  f11 : s1.archive_fd = s.archive_fd
  f12 : s1.archive_path = s.archive_path
  f13 : s1.temporary_archive_path = s.temporary_archive_path
  f14 : s1.temporary_base_path = s.temporary_base_path
  f15 : s1.base_path = s.base_path
  f16 : s1.fs_file_at_archive_path = s.fs_file_at_archive_path
  f17 : s1.fs_file_at_base_path = s.fs_file_at_base_path
  f18 : s1.decoder = s.decoder
  f19 : s1.use_after_free = s.use_after_free
  f20 : (∀ e, s.encoder = some e → s1.encoder = some e)
  f21 : (r = .ok () → s.direction = .encode → s1.encoder.isSome = true)

/-- Field record for the postcondition of ca_sync_finish_decoder_spec. -/
structure FinishDecoderSpec {σ : Type} (s : CaSync σ) (r : Except CErr Unit) (s1 : CaSync σ) : Prop where
  f1 : s1.direction = s.direction
  f2 : s1.wstore = s.wstore
  f3 : s1.rstores = s.rstores
  f4 : s1.chunker = s.chunker
  f5 : s1.buffer = s.buffer
  f6 : s1.store_puts = s.store_puts
  f7 : s1.archive_digest = s.archive_digest
  f8 : s1.index = s.index
  f9 : s1.eof = s.eof
  f10 : s1.archive_file = s.archive_file
  f11 : s1.archive_fd = s.archive_fd
  f12 : s1.archive_path = s.archive_path
  f13 : s1.temporary_archive_path = s.temporary_archive_path
  f14 : s1.fs_file_at_archive_path = s.fs_file_at_archive_path
  f15 : s1.fs_file_at_base_path = s.fs_file_at_base_path
  f16 : s1.encoder = s.encoder
  f17 : s1.use_after_free = s.use_after_free
  f18 : (r = .ok () → s1.decoder.isSome = true)

/-- Field record for the postcondition of ca_sync_start_decoder_spec. -/
structure StartDecoderSpec {σ : Type} (s : CaSync σ) (r : Except CErr Unit) (s1 : CaSync σ) : Prop where
  f1 : s1.direction = s.direction
  f2 : s1.wstore = s.wstore
  f3 : s1.rstores = s.rstores
  f4 : s1.chunker = s.chunker
  f5 : s1.buffer = s.buffer
  f6 : s1.store_puts = s.store_puts
  f7 : s1.archive_digest = s.archive_digest
  f8 : s1.index = s.index
  f9 : s1.eof = s.eof
  f10 : s1.archive_file = s.archive_file
  f11 : s1.archive_fd = s.archive_fd
  f12 : s1.archive_path = s.archive_path
  f13 : s1.temporary_archive_path = s.temporary_archive_path
  f14 : s1.fs_file_at_archive_path = s.fs_file_at_archive_path
  f15 : s1.fs_file_at_base_path = s.fs_file_at_base_path
  f16 : s1.encoder = s.encoder
  f17 : s1.use_after_free = s.use_after_free
  f18 : (∀ d, s.decoder = some d → s1.decoder = some d)
  f19 : (r = .ok () → s.direction = .decode → s1.decoder.isSome = true)

/-- Field record for the postcondition of ca_sync_start_index_spec. -/
structure StartIndexSpec {σ : Type} (s : CaSync σ) : Prop where
  f1 : (ca_sync_start_index s).direction = s.direction
  f2 : (ca_sync_start_index s).wstore = s.wstore
  f3 : (ca_sync_start_index s).rstores = s.rstores
  f4 : (ca_sync_start_index s).chunker = s.chunker
  f5 : (ca_sync_start_index s).buffer = s.buffer
  f6 : (ca_sync_start_index s).store_puts = s.store_puts
  f7 : (ca_sync_start_index s).archive_digest = s.archive_digest
  f8 : (ca_sync_start_index s).eof = s.eof
  f9 : (ca_sync_start_index s).archive_file = s.archive_file
  f10 : (ca_sync_start_index s).archive_fd = s.archive_fd
  f11 : (ca_sync_start_index s).archive_path = s.archive_path
  f12 : (ca_sync_start_index s).temporary_archive_path =
    s.temporary_archive_path
  f13 : (ca_sync_start_index s).fs_file_at_archive_path =
    s.fs_file_at_archive_path
  f14 : (ca_sync_start_index s).fs_file_at_base_path = s.fs_file_at_base_path
  f15 : (ca_sync_start_index s).encoder = s.encoder
  f16 : (ca_sync_start_index s).decoder = s.decoder
  f17 : (ca_sync_start_index s).use_after_free = s.use_after_free
  f18 : (s.index = none → (ca_sync_start_index s).index = none)
  f19 : indexOps (ca_sync_start_index s) = indexOps s
  f20 : (∀ idx, (ca_sync_start_index s).index = some idx → idx.opened = true)

/-- Field record for the postcondition of ca_sync_start_spec. -/
structure StartSpec {σ : Type} (s s1 : CaSync σ) : Prop where
  f1 : s1.direction = s.direction
  f2 : s1.wstore = s.wstore
  f3 : s1.rstores = s.rstores
  f4 : s1.chunker = s.chunker
  f5 : s1.buffer = s.buffer
  f6 : s1.store_puts = s.store_puts
  f7 : s1.archive_digest = s.archive_digest
  f8 : s1.eof = s.eof
  f9 : s1.archive_file = s.archive_file
  f10 : s1.fs_file_at_archive_path = s.fs_file_at_archive_path
  f11 : s1.fs_file_at_base_path = s.fs_file_at_base_path
  f12 : s1.use_after_free = s.use_after_free
  f13 : (s.index = none → s1.index = none)
  f14 : (∀ e, s.encoder = some e → s1.encoder = some e)
  f15 : (∀ d, s.decoder = some d → s1.decoder = some d)

/-- Field record for the postcondition of ca_sync_process_decoder_request_spec. -/
structure ProcessRequestSpec {σ : Type} (s s2 : CaSync σ) : Prop where
  f1 : s2.direction = s.direction
  f2 : s2.encoder = s.encoder
  f3 : s2.wstore = s.wstore
  f4 : s2.rstores = s.rstores
  f5 : s2.chunker = s.chunker
  f6 : s2.buffer = s.buffer
  f7 : s2.store_puts = s.store_puts
  f8 : s2.eof = s.eof
  f9 : s2.archive_file = s.archive_file
  f10 : s2.archive_fd = s.archive_fd
  f11 : s2.archive_path = s.archive_path
  f12 : s2.temporary_archive_path = s.temporary_archive_path
  f13 : s2.temporary_base_path = s.temporary_base_path
  f14 : s2.base_path = s.base_path
  f15 : s2.fs_file_at_archive_path = s.fs_file_at_archive_path
  f16 : s2.fs_file_at_base_path = s.fs_file_at_base_path
  f17 : s2.decoder.isSome = s.decoder.isSome
  f18 : s2.index.map CaIndex.opened = s.index.map CaIndex.opened
  f19 : (s.index = none → s2.index = none ∧
    s2.archive_digest = s.archive_digest)

/-- Field record for the postcondition of ca_sync_write_archive_spec. -/
structure WriteArchiveSpec {σ : Type} (s : CaSync σ) (p : List Byte) : Prop where
  f1 : (ca_sync_write_archive s p).direction = s.direction
  f2 : (ca_sync_write_archive s p).encoder = s.encoder
  f3 : (ca_sync_write_archive s p).decoder = s.decoder
  f4 : (ca_sync_write_archive s p).wstore = s.wstore
  f5 : (ca_sync_write_archive s p).rstores = s.rstores
  f6 : (ca_sync_write_archive s p).archive_fd = s.archive_fd
  f7 : (ca_sync_write_archive s p).archive_path = s.archive_path
  f8 : (ca_sync_write_archive s p).temporary_archive_path =
    s.temporary_archive_path
  f9 : (ca_sync_write_archive s p).eof = s.eof
  f10 : (ca_sync_write_archive s p).fs_file_at_archive_path =
    s.fs_file_at_archive_path
  f11 : (ca_sync_write_archive s p).index = s.index
  f12 : (ca_sync_write_archive s p).buffer = s.buffer
  f13 : (ca_sync_write_archive s p).store_puts = s.store_puts
  f14 : (ca_sync_write_archive s p).archive_digest = s.archive_digest
  f15 : (ca_sync_write_archive s p).chunker = s.chunker
  f16 : (ca_sync_write_archive s p).use_after_free = s.use_after_free
  f17 : (s.archive_fd.isSome = true →
    (ca_sync_write_archive s p).archive_file = s.archive_file ++ p)
  f18 : (s.archive_fd = none →
    (ca_sync_write_archive s p).archive_file = s.archive_file)

/-- Field record for the postcondition of ca_sync_write_archive_digest_spec. -/
structure WriteArchiveDigestSpec {σ : Type} (s : CaSync σ) (p : List Byte) : Prop where
  f1 : (ca_sync_write_archive_digest s p).direction = s.direction
  f2 : (ca_sync_write_archive_digest s p).encoder = s.encoder
  f3 : (ca_sync_write_archive_digest s p).decoder = s.decoder
  f4 : (ca_sync_write_archive_digest s p).wstore = s.wstore
  f5 : (ca_sync_write_archive_digest s p).rstores = s.rstores
  f6 : (ca_sync_write_archive_digest s p).archive_fd = s.archive_fd
  f7 : (ca_sync_write_archive_digest s p).archive_path = s.archive_path
  f8 : (ca_sync_write_archive_digest s p).temporary_archive_path =
    s.temporary_archive_path
  f9 : (ca_sync_write_archive_digest s p).eof = s.eof
  f10 : (ca_sync_write_archive_digest s p).fs_file_at_archive_path =
    s.fs_file_at_archive_path
  f11 : (ca_sync_write_archive_digest s p).index = s.index
  f12 : (ca_sync_write_archive_digest s p).buffer = s.buffer
  f13 : (ca_sync_write_archive_digest s p).store_puts = s.store_puts
  f14 : (ca_sync_write_archive_digest s p).archive_file = s.archive_file
  f15 : (ca_sync_write_archive_digest s p).chunker = s.chunker
  f16 : (ca_sync_write_archive_digest s p).use_after_free = s.use_after_free
  f17 : digestStream (ca_sync_write_archive_digest s p) = digestStream s ++ p

/-- Field record for the postcondition of ca_sync_allocate_archive_digest_spec. -/
structure AllocateDigestSpec {σ : Type} (s : CaSync σ) : Prop where
  f1 : (ca_sync_allocate_archive_digest s).direction = s.direction
  f2 : (ca_sync_allocate_archive_digest s).encoder = s.encoder
  f3 : (ca_sync_allocate_archive_digest s).decoder = s.decoder
  f4 : (ca_sync_allocate_archive_digest s).wstore = s.wstore
  f5 : (ca_sync_allocate_archive_digest s).rstores = s.rstores
  f6 : (ca_sync_allocate_archive_digest s).archive_fd = s.archive_fd
  f7 : (ca_sync_allocate_archive_digest s).archive_path = s.archive_path
  f8 : (ca_sync_allocate_archive_digest s).temporary_archive_path =
    s.temporary_archive_path
  f9 : (ca_sync_allocate_archive_digest s).eof = s.eof
  f10 : (ca_sync_allocate_archive_digest s).fs_file_at_archive_path =
    s.fs_file_at_archive_path
  f11 : (ca_sync_allocate_archive_digest s).index = s.index
  f12 : (ca_sync_allocate_archive_digest s).buffer = s.buffer
  f13 : (ca_sync_allocate_archive_digest s).store_puts = s.store_puts
  f14 : (ca_sync_allocate_archive_digest s).archive_file = s.archive_file
  f15 : (ca_sync_allocate_archive_digest s).use_after_free = s.use_after_free
  f16 : digestStream (ca_sync_allocate_archive_digest s) = digestStream s

/-- Field record for the postcondition of ca_sync_step_encode_master:
per-branch facts of one ENCODE step, with the hypotheses of the three
derived lemmas folded into the fields. -/
structure EncodeStepSpec {σ : Type} (s : CaSync σ) (r : Except CErr CaSyncResult) (s' : CaSync σ) : Prop where
  f1 : ∀ enc, s.encoder = some enc →
    enc.script.head? ≠ some CaEncoderResult.finished →
    s'.fs_file_at_archive_path = s.fs_file_at_archive_path
  f2 : ∀ res, r = .ok res → s.direction = .encode → s.wstore.isSome = true →
    chunkConcat s ++ s.buffer = digestStream s →
    s'.direction = .encode ∧ s'.wstore.isSome = true ∧
    (res ≠ .finished → chunkConcat s' ++ s'.buffer = digestStream s') ∧
    (res = .finished → chunkConcat s' = digestStream s')
  f3 : ∀ res, r = .ok res → s.direction = .encode → Started s →
    Started s' ∧ (res = .finished → s'.eof = true)

/-- Field record for the postcondition of ca_sync_step_decode_master:
per-branch facts of one DECODE step, with the hypotheses of the three
derived lemmas folded into the fields. -/
structure DecodeStepSpec {σ : Type} (s : CaSync σ) (r : Except CErr CaSyncResult) (s' : CaSync σ) : Prop where
  f1 : s'.fs_file_at_archive_path = s.fs_file_at_archive_path
  f2 : ∀ res, r = .ok res → s.index = none → s.archive_digest = none →
    s'.direction = s.direction ∧ s'.index = none ∧ s'.archive_digest = none
  f3 : ∀ res, r = .ok res → s.direction = .decode → Started s →
    Started s' ∧ (res = .finished → s'.eof = true)

/-- Field record for the postcondition of ca_sync_write_one_chunk_spec. -/
structure OneChunkSpec {σ : Type} (H : List Byte → ObjectID) (s : CaSync σ) (p : List Byte) (r : Except CErr Unit) (s' : CaSync σ) : Prop where
  f1 : PipeFrame s s'
  f2 : s'.buffer = s.buffer
  f3 : s'.archive_file = s.archive_file
  f4 : s'.archive_digest = s.archive_digest
  f5 : s'.chunker = s.chunker
  f6 : s'.decoder = s.decoder
  f7 : s'.use_after_free = s.use_after_free
  f8 : r = .ok () →
    s'.store_puts = s.store_puts ++ [(H p, p)] ∧
    (s.index = none → s'.index = none) ∧
    (∀ idx, s.index = some idx →
      s'.index = some { idx with ops := idx.ops ++ [.object (H p) p.length] })

/-- Field record for the postcondition of ca_sync_write_chunks_loop_spec. -/
structure ChunksLoopSpec {σ : Type} (s : CaSync σ) (p : List Byte) (r : Except CErr Unit) (s' : CaSync σ) : Prop where
  f1 : PipeFrame s s'
  f2 : s'.archive_file = s.archive_file
  f3 : s'.archive_digest = s.archive_digest
  f4 : s'.decoder = s.decoder
  f5 : s'.use_after_free = s.use_after_free
  f6 : r = .ok () → chunkSink s' = chunkSink s ++ p

/-- Field record for the postcondition of ca_sync_encode_feed_spec. -/
structure FeedSpec {σ : Type} (s : CaSync σ) (p : List Byte) (r : Except CErr Unit) (s' : CaSync σ) : Prop where
  f1 : PipeFrame s s'
  f2 : s'.decoder = s.decoder
  f3 : s'.use_after_free = s.use_after_free
  f4 : r = .ok () →
    digestStream s' = digestStream s ++ p ∧
    (s.archive_fd.isSome = true → s'.archive_file = s.archive_file ++ p) ∧
    (s.archive_fd = none → s'.archive_file = s.archive_file) ∧
    (s.wstore.isSome = true → chunkSink s' = chunkSink s ++ p) ∧
    (s.wstore = none →
      s'.store_puts = s.store_puts ∧ s'.buffer = s.buffer)

/-- Field record for the postcondition of ca_sync_write_final_chunk_spec. -/
structure FinalChunkSpec {σ : Type} (s : CaSync σ) (r : Except CErr Unit) (s' : CaSync σ) : Prop where
  f1 : PipeFrame s s'
  f2 : s'.archive_file = s.archive_file
  f3 : digestStream s' = digestStream s
  f4 : s'.decoder = s.decoder
  f5 : s'.use_after_free = s.use_after_free
  f6 : r = .ok () → s.wstore.isSome = true →
    chunkConcat s' = chunkConcat s ++ s.buffer

/-- Chunker oracle that never reports a boundary. -/
def exScanNone : Unit → List Byte → Option Nat × Unit :=
  fun u _ => (none, u)

/-- Chunker oracle that cuts at the end of every input slice. -/
def exScanCutAll : Unit → List Byte → Option Nat × Unit :=
  fun u p => (some p.length, u)

/-- Chunker oracle that cuts after the first byte of every input slice. -/
def exScanCutOne : Unit → List Byte → Option Nat × Unit :=
  fun u _ => (some 1, u)

/-- Stand-in hash oracle for concrete witnesses. -/
def exH : List Byte → ObjectID := fun p => p

/-- A store whose puts succeed and whose lookups miss. -/
def exStoreOk : CaStore := ⟨fun _ => .notFound, fun _ _ => .ok ()⟩

/-- A store whose puts fail with no-space. -/
def exStorePutFails : CaStore := ⟨fun _ => .notFound, fun _ _ => .error .enospc⟩

/-- A store holding exactly one object. -/
def exStoreWith (id : ObjectID) (b : List Byte) : CaStore :=
  ⟨fun q => if q = id then .found b else .notFound, fun _ _ => .ok ()⟩

/-- Index write-operation oracle that always succeeds. -/
def exWresOk : CaIndexOp → Except CErr Unit := fun _ => .ok ()

/-- Concrete driver for the eof-latch witness: a started ENCODE driver
whose encoder reports finished immediately. -/
def exC5 : CaSync Unit :=
  { ca_sync_new_encode () [] with
      encoder := some ⟨[CaEncoderResult.finished]⟩ }

/-- The state after the FINISHED step of `exC5`. -/
def exC5fin : CaSync Unit := (ca_sync_step exScanNone exH exC5).2

/-- Fresh ENCODE driver for the busy-semantics witness. -/
def exC7 : CaSync Unit := ca_sync_new_encode () []

/-- Filesystem oracle whose opens succeed. -/
def exWorldOk : World := ⟨fun _ => .opened 5, fun _ => .ok 6⟩

/-- Index behaviour whose write operations succeed and whose read script
is empty. -/
def exIdxBhv : CaIndexBehavior := ⟨exWresOk, []⟩

/-- Concrete ENCODE driver for the C1 counterexample: archive output by
path, a writable store whose put fails with no-space, one data byte that
the chunker keeps buffered. -/
def exC1 : CaSync Unit :=
  { ca_sync_new_encode ()
      [CaEncoderResult.data [1], CaEncoderResult.finished] with
      base_fd := some 3
      archive_path := some "out"
      wstore := some exStorePutFails }

/-- The state of `exC1` after its first (successful) step. -/
def exC1mid : CaSync Unit := (ca_sync_step exScanNone exH exC1).2

/-- Started ENCODE driver whose next encoder result is data (not
finished), for the amended-C1 witness. -/
def exC1am : CaSync Unit :=
  { ca_sync_new_encode () [] with
      encoder := some ⟨[CaEncoderResult.data [2]]⟩
      wstore := some exStoreOk }

/-- Concrete ENCODE driver for the C2 counterexample: index configured,
writable store configured, and a chunker that cuts exactly at the end of
the input, so the pending buffer is empty when the encoder finishes. -/
def exC2 : CaSync Unit :=
  { ca_sync_new_encode () [] with
      encoder := some ⟨[CaEncoderResult.data [7], CaEncoderResult.finished]⟩
      wstore := some exStoreOk
      index := some ⟨exWresOk, true, [], []⟩ }

/-- The final state of the `exC2` run. -/
def exC2fin : CaSync Unit :=
  (ca_sync_run_until_finished exScanCutAll exH 2 exC2).getD exC2

/-- Started ENCODE driver at the encoder-finished point with a nonempty
pending buffer, for the amended-C2 witness. -/
def exC2am : CaSync Unit :=
  { ca_sync_new_encode () [] with
      encoder := some ⟨[CaEncoderResult.finished]⟩
      wstore := some exStoreOk
      buffer := [3]
      archive_digest := some [3]
      index := some ⟨exWresOk, true, [], []⟩ }

/-- Concrete index-driven DECODE driver for C3: one index record
`([9], 1)` resolved from a seed store holding byte `[7]`. -/
def exC3 : CaSync Unit :=
  { ca_sync_new_decode () [] with
      decoder := some ⟨[CaDecoderResult.request, CaDecoderResult.finished],
        [], false, false⟩
      rstores := [exStoreWith [9] [7]]
      index := some ⟨exWresOk, true, [],
        [CaIndexReadResult.record [9] 1, CaIndexReadResult.eofMark]⟩ }

/-- Concrete ENCODE driver for the C4 witness: two data bytes cut into
two one-byte chunks. -/
def exC4 : CaSync Unit :=
  { ca_sync_new_encode ()
      [CaEncoderResult.data [1, 2], CaEncoderResult.finished] with
      base_fd := some 3
      wstore := some exStoreOk }

/-- The final state of the `exC4` run. -/
def exC4fin : CaSync Unit :=
  (ca_sync_run_until_finished exScanCutOne exH 2 exC4).getD exC4

/-- Concrete index-driven DECODE driver for C8: the index declares size 2
for an object whose stored bytes have length 1. -/
def exC8 : CaSync Unit :=
  { ca_sync_new_decode () [] with
      decoder := some ⟨[CaDecoderResult.request], [], false, false⟩
      rstores := [exStoreWith [9] [7]]
      index := some ⟨exWresOk, true, [],
        [CaIndexReadResult.record [9] 2, CaIndexReadResult.eofMark]⟩ }

/-- Started ENCODE driver with archive descriptor and writable store, for
the C9 witness. -/
def exC9 : CaSync Unit :=
  { ca_sync_new_encode () [] with
      encoder := some ⟨[CaEncoderResult.data [5]]⟩
      archive_fd := some 4
      wstore := some exStoreOk }

/-- Concrete DECODE driver fed from a raw archive descriptor only (no
index), for the C10 witness. -/
def exC10 : CaSync Unit :=
  { ca_sync_new_decode ()
      [CaDecoderResult.request, CaDecoderResult.finished] with
      archive_fd := some 4
      base_fd := some 3 }

/-- The final state of the `exC10` run. -/
def exC10fin : CaSync Unit :=
  (ca_sync_run_until_finished exScanNone exH 2 exC10).getD exC10

theorem bytesConcat_append (l1 l2 : List (List Byte)) :
    bytesConcat (l1 ++ l2) = bytesConcat l1 ++ bytesConcat l2 := by
  induction l1 with
  | nil => simp [bytesConcat]
  | cons x xs ih => simp [bytesConcat, ih]

theorem pipeFrame_refl {σ : Type} (s : CaSync σ) : PipeFrame s s :=
  ⟨rfl, rfl, rfl, rfl, rfl, rfl, rfl, rfl, rfl, rfl, rfl⟩

theorem pipeFrame_trans {σ : Type} {a b c : CaSync σ}
    (h1 : PipeFrame a b) (h2 : PipeFrame b c) : PipeFrame a c := by
  have d1 := h1.f1
  have e1 := h1.f2
  have dc1 := h1.f3
  have w1 := h1.f4
  have r1 := h1.f5
  have af1 := h1.f6
  have ap1 := h1.f7
  have t1 := h1.f8
  have eo1 := h1.f9
  have fs1 := h1.f10
  have io1 := h1.f11
  have d2 := h2.f1
  have e2 := h2.f2
  have dc2 := h2.f3
  have w2 := h2.f4
  have r2 := h2.f5
  have af2 := h2.f6
  have ap2 := h2.f7
  have t2 := h2.f8
  have eo2 := h2.f9
  have fs2 := h2.f10
  have io2 := h2.f11
  exact ⟨d2.trans d1, e2.trans e1, dc2.trans dc1, w2.trans w1, r2.trans r1,
    af2.trans af1, ap2.trans ap1, t2.trans t1, eo2.trans eo1, fs2.trans fs1,
    io2.trans io1⟩

theorem ca_sync_write_one_chunk_spec {σ : Type} (H : List Byte → ObjectID)
    (s : CaSync σ) (p : List Byte) (r : Except CErr Unit) (s' : CaSync σ)
    (h : ca_sync_write_one_chunk H s p = (r, s')) :
    OneChunkSpec H s p r s' := by
  cases hw : s.wstore with
  | none =>
    simp only [ca_sync_write_one_chunk, ca_sync_make_object_id, hw] at h
    injection h with h1 h2
    subst h1; subst h2
    exact ⟨pipeFrame_refl s, rfl, rfl, rfl, rfl, rfl, rfl,
      fun hk => Except.noConfusion hk⟩
  | some w =>
    simp only [ca_sync_write_one_chunk, ca_sync_make_object_id, hw] at h
    cases hput : w.put (H p) p with
    | error e =>
      rw [hput] at h
      injection h with h1 h2
      subst h1; subst h2
      exact ⟨pipeFrame_refl s, rfl, rfl, rfl, rfl, rfl, rfl,
        fun hk => Except.noConfusion hk⟩
    | ok v =>
      rw [hput] at h
      cases hidx : s.index with
      | none =>
        simp only [hidx] at h
        injection h with h1 h2
        subst h1; subst h2
        exact ⟨⟨rfl, rfl, rfl, hw.symm, rfl, rfl, rfl, rfl, rfl, rfl,
          (congrArg (Option.map CaIndex.opened) hidx).symm⟩,
          rfl, rfl, rfl, rfl, rfl, rfl,
          fun _ => ⟨rfl, fun _ => rfl,
            fun idx hx => Option.noConfusion (hidx.symm.trans hx)⟩⟩
      | some idx =>
        simp only [hidx, ca_index_write_op] at h
        cases hres : idx.wres (.object (H p) p.length) with
        | error e =>
          rw [hres] at h
          injection h with h1 h2
          subst h1; subst h2
          exact ⟨⟨rfl, rfl, rfl, hw.symm, rfl, rfl, rfl, rfl, rfl, rfl,
            (congrArg (Option.map CaIndex.opened) hidx).symm⟩,
            rfl, rfl, rfl, rfl, rfl, rfl,
            fun hk => Except.noConfusion hk⟩
        | ok v2 =>
          rw [hres] at h
          injection h with h1 h2
          subst h1; subst h2
          exact ⟨⟨rfl, rfl, rfl, hw.symm, rfl, rfl, rfl, rfl, rfl, rfl,
            (congrArg (Option.map CaIndex.opened) hidx).symm⟩,
            rfl, rfl, rfl, rfl, rfl, rfl,
            fun _ => ⟨rfl,
              fun hn => Option.noConfusion (hidx.symm.trans hn),
              fun idx2 hx => by
                cases Option.some.inj (hidx.symm.trans hx)
                rfl⟩⟩

theorem ca_sync_write_chunks_loop_spec {σ : Type}
    (scan : σ → List Byte → Option Nat × σ) (H : List Byte → ObjectID)
    (fuel : Nat) :
    ∀ (s : CaSync σ) (p : List Byte) (r : Except CErr Unit) (s' : CaSync σ),
      ca_sync_write_chunks_loop scan H fuel s p = (r, s') →
      ChunksLoopSpec s p r s' := by
  induction fuel with
  | zero =>
    intro s p r s' h
    simp only [ca_sync_write_chunks_loop] at h
    injection h with h1 h2
    subst h1; subst h2
    exact ⟨pipeFrame_refl s, rfl, rfl, rfl, rfl, fun hk => Except.noConfusion hk⟩
  | succ n ih =>
    intro s p r s' h
    simp only [ca_sync_write_chunks_loop] at h
    by_cases hp : p = []
    · rw [if_pos hp] at h
      injection h with h1 h2
      subst h1; subst h2
      refine ⟨pipeFrame_refl s, rfl, rfl, rfl, rfl, fun _ => ?_⟩
      rw [hp]
      simp
    · rw [if_neg hp] at h
      rcases hscan : scan s.chunker p with ⟨ko, c2⟩
      rw [hscan] at h
      cases ko with
      | none =>
        simp only [] at h
        injection h with h1 h2
        subst h1; subst h2
        refine ⟨⟨rfl, rfl, rfl, rfl, rfl, rfl, rfl, rfl, rfl, rfl, rfl⟩,
          rfl, rfl, rfl, rfl, fun _ => ?_⟩
        simp [chunkSink, chunkConcat]
      | some k =>
        simp only [] at h
        rcases hchunk : ca_sync_write_one_chunk H
            (if s.buffer = [] then { s with chunker := c2 }
             else { s with chunker := c2, buffer := s.buffer ++ p.take k })
            (s.buffer ++ p.take k) with ⟨rc, s3⟩
        rw [hchunk] at h
        have hh1 := ca_sync_write_one_chunk_spec H _ _ _ _ hchunk
        have cf := hh1.f1
        have cfile := hh1.f3
        have cdig := hh1.f4
        have cdec := hh1.f6
        have cuaf := hh1.f7
        have cok := hh1.f8
        have hf2 : PipeFrame s
            (if s.buffer = [] then { s with chunker := c2 }
             else { s with chunker := c2, buffer := s.buffer ++ p.take k }) := by
          by_cases hb : s.buffer = []
          · rw [if_pos hb]
            exact ⟨rfl, rfl, rfl, rfl, rfl, rfl, rfl, rfl, rfl, rfl, rfl⟩
          · rw [if_neg hb]
            exact ⟨rfl, rfl, rfl, rfl, rfl, rfl, rfl, rfl, rfl, rfl, rfl⟩
        have hfile2 :
            (if s.buffer = [] then { s with chunker := c2 }
             else { s with chunker := c2,
                           buffer := s.buffer ++ p.take k }).archive_file =
            s.archive_file := by
          by_cases hb : s.buffer = []
          · rw [if_pos hb]
          · rw [if_neg hb]
        have hdig2 :
            (if s.buffer = [] then { s with chunker := c2 }
             else { s with chunker := c2,
                           buffer := s.buffer ++ p.take k }).archive_digest =
            s.archive_digest := by
          by_cases hb : s.buffer = []
          · rw [if_pos hb]
          · rw [if_neg hb]
        have hdec2 :
            (if s.buffer = [] then { s with chunker := c2 }
             else { s with chunker := c2,
                           buffer := s.buffer ++ p.take k }).decoder =
            s.decoder := by
          by_cases hb : s.buffer = []
          · rw [if_pos hb]
          · rw [if_neg hb]
        have huaf2 :
            (if s.buffer = [] then { s with chunker := c2 }
             else { s with chunker := c2,
                           buffer := s.buffer ++ p.take k }).use_after_free =
            s.use_after_free := by
          by_cases hb : s.buffer = []
          · rw [if_pos hb]
          · rw [if_neg hb]
        have hputs2 :
            (if s.buffer = [] then { s with chunker := c2 }
             else { s with chunker := c2,
                           buffer := s.buffer ++ p.take k }).store_puts =
            s.store_puts := by
          by_cases hb : s.buffer = []
          · rw [if_pos hb]
          · rw [if_neg hb]
        cases rc with
        | error e =>
          injection h with h1 h2
          subst h1; subst h2
          exact ⟨pipeFrame_trans hf2 cf, cfile.trans hfile2, cdig.trans hdig2,
            cdec.trans hdec2, cuaf.trans huaf2, fun hk => Except.noConfusion hk⟩
        | ok v =>
          have hh2 := ih _ _ _ _ h
          have rf := hh2.f1
          have rfile := hh2.f2
          have rdig := hh2.f3
          have rdec := hh2.f4
          have ruaf := hh2.f5
          have rok := hh2.f6
          have hf3 : PipeFrame s3 { s3 with buffer := [] } :=
            ⟨rfl, rfl, rfl, rfl, rfl, rfl, rfl, rfl, rfl, rfl, rfl⟩
          refine ⟨pipeFrame_trans (pipeFrame_trans hf2 cf)
              (pipeFrame_trans hf3 rf),
            by rw [rfile]; exact cfile.trans hfile2,
            by rw [rdig]; exact cdig.trans hdig2,
            by rw [rdec]; exact cdec.trans hdec2,
            by rw [ruaf]; exact cuaf.trans huaf2,
            fun hk => ?_⟩
          have hcs := rok hk
          have hc3 : chunkConcat s3 =
              chunkConcat s ++ (s.buffer ++ p.take k) := by
            have := (cok rfl).1
            unfold chunkConcat
            rw [this, hputs2]
            simp [bytesConcat_append, chunkConcat, bytesConcat]
          have : chunkSink { s3 with buffer := [] } =
              chunkConcat s ++ (s.buffer ++ p.take k) := by
            simp [chunkSink, chunkConcat] at hc3 ⊢
            exact hc3
          rw [hcs, this, chunkSink]
          simp [List.append_assoc]

theorem ca_sync_write_chunks_spec {σ : Type}
    (scan : σ → List Byte → Option Nat × σ) (H : List Byte → ObjectID)
    (s : CaSync σ) (p : List Byte) (r : Except CErr Unit) (s' : CaSync σ)
    (h : ca_sync_write_chunks scan H s p = (r, s')) :
    PipeFrame s s' ∧ s'.archive_file = s.archive_file ∧
    s'.archive_digest = s.archive_digest ∧ s'.decoder = s.decoder ∧
    s'.use_after_free = s.use_after_free ∧
    (s.wstore = none → s' = s) ∧
    (r = .ok () → s.wstore.isSome = true → chunkSink s' = chunkSink s ++ p) := by
  cases hw : s.wstore with
  | none =>
    simp only [ca_sync_write_chunks, hw] at h
    injection h with h1 h2
    subst h1; subst h2
    exact ⟨pipeFrame_refl s, rfl, rfl, rfl, rfl, fun _ => rfl,
      fun _ hws => absurd hws (by simp)⟩
  | some w =>
    simp only [ca_sync_write_chunks, hw] at h
    have hh3 := ca_sync_write_chunks_loop_spec scan H (p.length + 1) s p r s' h
    have f := hh3.f1
    have file := hh3.f2
    have dig := hh3.f3
    have dec := hh3.f4
    have uaf := hh3.f5
    have ok := hh3.f6
    exact ⟨f, file, dig, dec, uaf,
      fun hn => absurd hn (by simp),
      fun hr _ => ok hr⟩

theorem ca_sync_write_archive_spec {σ : Type} (s : CaSync σ) (p : List Byte) :
    WriteArchiveSpec s p := by
  cases hfd : s.archive_fd with
  | none =>
    have he : ca_sync_write_archive s p = s := by
      simp [ca_sync_write_archive, hfd]
    exact ⟨by rw [he], by rw [he], by rw [he], by rw [he], by rw [he],
      by rw [he], by rw [he], by rw [he], by rw [he], by rw [he],
      by rw [he], by rw [he], by rw [he], by rw [he], by rw [he],
      by rw [he],
      fun hs => Bool.noConfusion ((congrArg Option.isSome hfd).symm.trans hs),
      fun h9 => by rw [he]⟩
  | some fd =>
    have he : ca_sync_write_archive s p =
        { s with archive_file := s.archive_file ++ p } := by
      simp [ca_sync_write_archive, hfd]
    exact ⟨by rw [he], by rw [he], by rw [he], by rw [he], by rw [he],
      by rw [he], by rw [he], by rw [he], by rw [he], by rw [he],
      by rw [he], by rw [he], by rw [he], by rw [he], by rw [he],
      by rw [he], fun h9 => by rw [he],
      fun hn => Option.noConfusion (hfd.symm.trans hn)⟩

theorem ca_sync_write_archive_digest_spec {σ : Type} (s : CaSync σ)
    (p : List Byte) :
    WriteArchiveDigestSpec s p := by
  cases hd : s.archive_digest <;> refine ⟨?_, ?_, ?_, ?_, ?_, ?_, ?_, ?_, ?_, ?_, ?_, ?_, ?_, ?_, ?_, ?_, ?_⟩ <;>
    simp [ca_sync_write_archive_digest, ca_sync_allocate_archive_digest,
      digestStream, hd]

theorem ca_sync_write_archive_digest_base {σ : Type} (s : CaSync σ)
    (p : List Byte) :
    (ca_sync_write_archive_digest s p).temporary_base_path =
      s.temporary_base_path ∧
    (ca_sync_write_archive_digest s p).base_path = s.base_path ∧
    (ca_sync_write_archive_digest s p).fs_file_at_base_path =
      s.fs_file_at_base_path := by
  cases hd : s.archive_digest <;>
    simp [ca_sync_write_archive_digest, ca_sync_allocate_archive_digest, hd]

theorem ca_sync_encode_feed_spec {σ : Type}
    (scan : σ → List Byte → Option Nat × σ) (H : List Byte → ObjectID)
    (s : CaSync σ) (p : List Byte) (r : Except CErr Unit) (s' : CaSync σ)
    (h : ca_sync_encode_feed scan H s p = (r, s')) :
    FeedSpec s p r s' := by
  unfold ca_sync_encode_feed at h
  have hh4 := ca_sync_write_archive_spec s p
  have a1 := hh4.f1
  have a2 := hh4.f2
  have a3 := hh4.f3
  have a4 := hh4.f4
  have a5 := hh4.f5
  have a6 := hh4.f6
  have a7 := hh4.f7
  have a8 := hh4.f8
  have a9 := hh4.f9
  have a10 := hh4.f10
  have a11 := hh4.f11
  have a12 := hh4.f12
  have a13 := hh4.f13
  have a14 := hh4.f14
  have a16 := hh4.f16
  have a17 := hh4.f17
  have a18 := hh4.f18
  have hh5 := ca_sync_write_archive_digest_spec (ca_sync_write_archive s p) p
  have b1 := hh5.f1
  have b2 := hh5.f2
  have b3 := hh5.f3
  have b4 := hh5.f4
  have b5 := hh5.f5
  have b6 := hh5.f6
  have b7 := hh5.f7
  have b8 := hh5.f8
  have b9 := hh5.f9
  have b10 := hh5.f10
  have b11 := hh5.f11
  have b12 := hh5.f12
  have b13 := hh5.f13
  have b14 := hh5.f14
  have b16 := hh5.f16
  have b17 := hh5.f17
  have hh6 := ca_sync_write_chunks_spec scan H _ p r s' h
  have cf := hh6.1
  have cfile := hh6.2.1
  have cdig := hh6.2.2.1
  have cdec := hh6.2.2.2.1
  have cuaf := hh6.2.2.2.2.1
  have cok := hh6.2.2.2.2.2.2
  have hfa : PipeFrame s (ca_sync_write_archive s p) := by
    exact ⟨a1, a2, by rw [a3], a4, a5, a6, a7, a8, a9, a10, by rw [a11]⟩
  have hfb : PipeFrame (ca_sync_write_archive s p)
      (ca_sync_write_archive_digest (ca_sync_write_archive s p) p) := by
    exact ⟨b1, b2, by rw [b3], b4, b5, b6, b7, b8, b9, b10, by rw [b11]⟩
  refine ⟨pipeFrame_trans (pipeFrame_trans hfa hfb) cf,
    by rw [cdec, b3, a3], by rw [cuaf, b16, a16], fun hr => ?_⟩
  have hws := cok hr
  constructor
  · have e1 : digestStream s' =
        digestStream (ca_sync_write_archive_digest (ca_sync_write_archive s p) p) := by
      unfold digestStream
      rw [cdig]
    rw [e1, b17]
    unfold digestStream
    rw [a14]
  constructor
  · intro hfd
    rw [cfile, b14, a17 hfd]
  constructor
  · intro hfd
    rw [cfile, b14, a18 hfd]
  constructor
  · intro hw
    have : (ca_sync_write_archive_digest (ca_sync_write_archive s p)
        p).wstore.isSome = true := by rw [b4, a4]; exact hw
    have h2 := hws this
    rw [h2]
    unfold chunkSink chunkConcat
    rw [b13, a13, b12, a12]
  · intro hw
    have hh7 := cf
    have hwn : (ca_sync_write_archive_digest (ca_sync_write_archive s p)
        p).wstore = none := by rw [b4, a4]; exact hw
    have hh8 := ca_sync_write_chunks_spec scan H _ p r s' h
    have g6 := hh8.2.2.2.2.2.1
    have := g6 hwn
    rw [this]
    exact ⟨by rw [b13, a13], by rw [b12, a12]⟩

theorem ca_sync_allocate_archive_digest_spec {σ : Type} (s : CaSync σ) :
    AllocateDigestSpec s := by
  cases hd : s.archive_digest <;> refine ⟨?_, ?_, ?_, ?_, ?_, ?_, ?_, ?_, ?_, ?_, ?_, ?_, ?_, ?_, ?_, ?_⟩ <;>
    simp [ca_sync_allocate_archive_digest, digestStream, hd]

theorem ca_sync_write_final_chunk_spec {σ : Type} (H : List Byte → ObjectID)
    (s : CaSync σ) (r : Except CErr Unit) (s' : CaSync σ)
    (h : ca_sync_write_final_chunk H s = (r, s')) :
    FinalChunkSpec s r s' := by
  cases hw : s.wstore with
  | none =>
    simp only [ca_sync_write_final_chunk, hw] at h
    injection h with h1 h2
    subst h1; subst h2
    exact ⟨pipeFrame_refl s, rfl, rfl, rfl, rfl, fun _ hws =>
      Bool.noConfusion ((congrArg Option.isSome hw).symm.trans hws)⟩
  | some w =>
    simp only [ca_sync_write_final_chunk, hw] at h
    by_cases hb : s.buffer = []
    · rw [if_pos hb] at h
      injection h with h1 h2
      subst h1; subst h2
      refine ⟨pipeFrame_refl s, rfl, rfl, rfl, rfl, fun _ _ => ?_⟩
      rw [hb]
      simp
    · rw [if_neg hb] at h
      rcases hchunk : ca_sync_write_one_chunk H s s.buffer with ⟨rc, s1⟩
      rw [hchunk] at h
      have hh9 := ca_sync_write_one_chunk_spec H _ _ _ _ hchunk
      have cf := hh9.f1
      have cfile := hh9.f3
      have cdig := hh9.f4
      have cdec := hh9.f6
      have cuaf := hh9.f7
      have cok := hh9.f8
      have cds : digestStream s1 = digestStream s := by
        unfold digestStream
        rw [cdig]
      cases rc with
      | error e =>
        injection h with h1 h2
        subst h1; subst h2
        exact ⟨cf, cfile, cds, cdec, cuaf, fun hk => absurd hk (by simp)⟩
      | ok v =>
        have hputs1 : s1.store_puts = s.store_puts ++ [(H s.buffer, s.buffer)] :=
          (cok rfl).1
        have hconc : chunkConcat s1 = chunkConcat s ++ s.buffer := by
          unfold chunkConcat
          rw [hputs1]
          simp [bytesConcat_append, bytesConcat]
        cases hidx : s1.index with
        | none =>
          simp only [hidx] at h
          injection h with h1 h2
          subst h1; subst h2
          exact ⟨cf, cfile, cds, cdec, cuaf, fun _ _ => hconc⟩
        | some idx =>
          simp only [hidx, ca_index_write_op] at h
          have hh10 := ca_sync_allocate_archive_digest_spec s1
          have l1 := hh10.f1
          have l2 := hh10.f2
          have l3 := hh10.f3
          have l4 := hh10.f4
          have l5 := hh10.f5
          have l6 := hh10.f6
          have l7 := hh10.f7
          have l8 := hh10.f8
          have l9 := hh10.f9
          have l10 := hh10.f10
          have l13 := hh10.f13
          have l14 := hh10.f14
          have l15 := hh10.f15
          have l16 := hh10.f16
          have hop : s1.index.map CaIndex.opened = some idx.opened := by
            rw [hidx]
            rfl
          have hframe : ∀ i : CaIndex, i.opened = idx.opened →
              PipeFrame s
                { ca_sync_allocate_archive_digest s1 with index := some i } := by
            intro i hi
            refine pipeFrame_trans cf ⟨?_, ?_, ?_, ?_, ?_, ?_, ?_, ?_, ?_, ?_, ?_⟩
            · exact l1
            · exact l2
            · show (ca_sync_allocate_archive_digest s1).decoder.isSome =
                s1.decoder.isSome
              rw [l3]
            · exact l4
            · exact l5
            · exact l6
            · exact l7
            · exact l8
            · exact l9
            · exact l10
            · show some i.opened = s1.index.map CaIndex.opened
              rw [hop, hi]
          have hfile : ∀ i : CaIndex,
              ({ ca_sync_allocate_archive_digest s1 with
                  index := some i } : CaSync σ).archive_file =
                s.archive_file := by
            intro i
            show (ca_sync_allocate_archive_digest s1).archive_file =
              s.archive_file
            rw [l14, cfile]
          have hds : ∀ i : CaIndex,
              digestStream ({ ca_sync_allocate_archive_digest s1 with
                  index := some i } : CaSync σ) = digestStream s := by
            intro i
            show digestStream (ca_sync_allocate_archive_digest s1) =
              digestStream s
            rw [l16, cds]
          have hdecs : ∀ i : CaIndex,
              ({ ca_sync_allocate_archive_digest s1 with
                  index := some i } : CaSync σ).decoder = s.decoder := by
            intro i
            show (ca_sync_allocate_archive_digest s1).decoder = s.decoder
            rw [l3, cdec]
          have huafs : ∀ i : CaIndex,
              ({ ca_sync_allocate_archive_digest s1 with
                  index := some i } : CaSync σ).use_after_free =
                s.use_after_free := by
            intro i
            show (ca_sync_allocate_archive_digest s1).use_after_free =
              s.use_after_free
            rw [l15, cuaf]
          have hcc : ∀ i : CaIndex,
              chunkConcat ({ ca_sync_allocate_archive_digest s1 with
                  index := some i } : CaSync σ) =
                chunkConcat s ++ s.buffer := by
            intro i
            show chunkConcat (ca_sync_allocate_archive_digest s1) =
              chunkConcat s ++ s.buffer
            unfold chunkConcat
            rw [l13]
            exact hconc
          cases hres1 : idx.wres
              (.digest (H ((ca_sync_allocate_archive_digest
                s1).archive_digest.getD []))) with
          | error e =>
            simp only [hres1] at h
            injection h with h1 h2
            subst h1; subst h2
            exact ⟨hframe idx rfl, hfile idx, hds idx, hdecs idx, huafs idx,
              fun hk => absurd hk (by simp)⟩
          | ok v1 =>
            simp only [hres1] at h
            cases hres2 : idx.wres .eof_rec with
            | error e =>
              simp only [hres2] at h
              injection h with h1 h2
              subst h1; subst h2
              exact ⟨hframe _ rfl, hfile _, hds _, hdecs _, huafs _,
                fun hk => absurd hk (by simp)⟩
            | ok v2 =>
              simp only [hres2] at h
              cases hres3 : idx.wres .closed with
              | error e =>
                simp only [hres3] at h
                injection h with h1 h2
                subst h1; subst h2
                exact ⟨hframe _ rfl, hfile _, hds _, hdecs _, huafs _,
                  fun hk => absurd hk (by simp)⟩
              | ok v3 =>
                simp only [hres3] at h
                injection h with h1 h2
                subst h1; subst h2
                exact ⟨hframe _ rfl, hfile _, hds _, hdecs _, huafs _,
                  fun _ _ => hcc _⟩

theorem ca_sync_start_encoder_spec {σ : Type} (s : CaSync σ)
    (r : Except CErr Unit) (s1 : CaSync σ)
    (h : ca_sync_start_encoder s = (r, s1)) :
    StartEncoderSpec s r s1 := by
  cases hdir : s.direction with
  | encode =>
    cases henc : s.encoder with
    | none =>
      cases hbfd : s.base_fd with
      | none =>
        simp only [ca_sync_start_encoder, hdir, henc, hbfd] at h
        injection h with h1 h2
        subst h1; subst h2
        exact ⟨rfl, rfl, rfl, rfl, rfl, rfl, rfl, rfl, rfl, rfl, rfl, rfl,
          rfl, rfl, rfl, rfl, rfl, rfl, rfl, fun e he => he,
          fun hk => absurd hk (by simp)⟩
      | some fd =>
        simp only [ca_sync_start_encoder, hdir, henc, hbfd] at h
        injection h with h1 h2
        subst h1; subst h2
        exact ⟨hdir.symm, rfl, rfl, rfl, rfl, rfl, rfl, rfl, rfl, rfl, rfl,
          rfl, rfl, rfl, rfl, rfl, rfl, rfl, rfl,
          fun e he => Option.noConfusion (henc.symm.trans he),
          fun _ _ => rfl⟩
    | some e =>
      simp only [ca_sync_start_encoder, hdir, henc] at h
      injection h with h1 h2
      subst h1; subst h2
      exact ⟨rfl, rfl, rfl, rfl, rfl, rfl, rfl, rfl, rfl, rfl, rfl, rfl,
        rfl, rfl, rfl, rfl, rfl, rfl, rfl, fun e' he' => he',
        fun _ _ => by rw [henc]; rfl⟩
  | decode =>
    simp only [ca_sync_start_encoder, hdir] at h
    injection h with h1 h2
    subst h1; subst h2
    exact ⟨rfl, rfl, rfl, rfl, rfl, rfl, rfl, rfl, rfl, rfl, rfl, rfl,
      rfl, rfl, rfl, rfl, rfl, rfl, rfl, fun e' he' => he',
      fun _ hd => CaDirection.noConfusion (hdir.symm.trans hd)⟩

theorem ca_sync_finish_decoder_spec {σ : Type} (s : CaSync σ)
    (r : Except CErr Unit) (s1 : CaSync σ)
    (h : ca_sync_finish_decoder s = (r, s1)) :
    FinishDecoderSpec s r s1 := by
  cases hbfd : s.base_fd with
  | none =>
    cases hbm : s.base_mode with
    | none =>
      simp only [ca_sync_finish_decoder, hbfd, hbm] at h
      injection h with h1 h2
      subst h1; subst h2
      exact ⟨rfl, rfl, rfl, rfl, rfl, rfl, rfl, rfl, rfl, rfl, rfl, rfl,
        rfl, rfl, rfl, rfl, rfl, fun hk => absurd hk (by simp)⟩
    | some m =>
      simp only [ca_sync_finish_decoder, hbfd, hbm] at h
      injection h with h1 h2
      subst h1; subst h2
      exact ⟨rfl, rfl, rfl, rfl, rfl, rfl, rfl, rfl, rfl, rfl, rfl, rfl,
        rfl, rfl, rfl, rfl, rfl, fun _ => rfl⟩
  | some fd =>
    simp only [ca_sync_finish_decoder, hbfd] at h
    injection h with h1 h2
    subst h1; subst h2
    exact ⟨rfl, rfl, rfl, rfl, rfl, rfl, rfl, rfl, rfl, rfl, rfl, rfl,
      rfl, rfl, rfl, rfl, rfl, fun _ => rfl⟩

/-- The finish-decoder postcondition gives the start-decoder one once the
direction and decoder-propagation facts are supplied. -/
theorem start_decoder_of_finish {σ : Type} {s s1 : CaSync σ}
    {r : Except CErr Unit} (hh : FinishDecoderSpec s r s1)
    (g1 : s1.direction = s.direction)
    (g18 : ∀ d, s.decoder = some d → s1.decoder = some d) :
    StartDecoderSpec s r s1 :=
  ⟨g1, hh.f2, hh.f3, hh.f4, hh.f5, hh.f6, hh.f7, hh.f8, hh.f9, hh.f10,
   hh.f11, hh.f12, hh.f13, hh.f14, hh.f15, hh.f16, hh.f17, g18,
   fun hk _ => hh.f18 hk⟩

theorem ca_sync_start_decoder_spec {σ : Type} (s : CaSync σ)
    (r : Except CErr Unit) (s1 : CaSync σ)
    (h : ca_sync_start_decoder s = (r, s1)) :
    StartDecoderSpec s r s1 := by
  revert h
  unfold ca_sync_start_decoder
  cases hdir : s.direction with
  | encode =>
    intro h
    injection h with h1 h2
    subst h1; subst h2
    exact ⟨rfl, rfl, rfl, rfl, rfl, rfl, rfl, rfl, rfl, rfl, rfl, rfl,
      rfl, rfl, rfl, rfl, rfl, fun d hd => hd,
      fun _ hd => CaDirection.noConfusion (hdir.symm.trans hd)⟩
  | decode =>
    cases hdec : s.decoder with
    | some d =>
      intro h
      injection h with h1 h2
      subst h1; subst h2
      exact ⟨rfl, rfl, rfl, rfl, rfl, rfl, rfl, rfl, rfl, rfl, rfl, rfl,
        rfl, rfl, rfl, rfl, rfl, fun d' hd' => hd',
        fun _ _ => by rw [hdec]; rfl⟩
    | none =>
      have hvac : ∀ d : CaDecoder, s.decoder = some d →
          s1.decoder = some d :=
        fun d hd => Option.noConfusion (hdec.symm.trans hd)
      cases hbfd : s.base_fd with
      | some fd =>
        intro h
        have hh11 := ca_sync_finish_decoder_spec _ r s1 h
        exact start_decoder_of_finish hh11 hh11.f1 hvac
      | none =>
        cases hbp : s.base_path with
        | none =>
          intro h
          have hh12 := ca_sync_finish_decoder_spec _ r s1 h
          exact start_decoder_of_finish hh12 hh12.f1 hvac
        | some bp =>
          cases hbm : s.base_mode with
          | none =>
            intro h
            injection h with h1 h2
            subst h1; subst h2
            exact ⟨rfl, rfl, rfl, rfl, rfl, rfl, rfl, rfl, rfl, rfl, rfl,
              rfl, rfl, rfl, rfl, rfl, rfl, hvac,
              fun hk => absurd hk (by simp)⟩
          | some m =>
            cases m with
            | dir =>
              intro h
              have hh13 := ca_sync_finish_decoder_spec _ r s1 h
              exact ⟨(hh13.f1).trans hdir.symm, hh13.f2, hh13.f3, hh13.f4,
                hh13.f5, hh13.f6, hh13.f7, hh13.f8, hh13.f9, hh13.f10,
                hh13.f11, hh13.f12, hh13.f13, hh13.f14, hh13.f15,
                hh13.f16, hh13.f17, hvac, fun hk _ => hh13.f18 hk⟩
            | reg =>
              intro h
              have hh14 := ca_sync_finish_decoder_spec _ r s1 h
              exact ⟨(hh14.f1).trans hdir.symm, hh14.f2, hh14.f3, hh14.f4,
                hh14.f5, hh14.f6, hh14.f7, hh14.f8, hh14.f9, hh14.f10,
                hh14.f11, hh14.f12, hh14.f13, hh14.f14, hh14.f15,
                hh14.f16, hh14.f17, hvac, fun hk _ => hh14.f18 hk⟩
            | blk =>
              intro h
              have hh15 := ca_sync_finish_decoder_spec _ r s1 h
              exact ⟨(hh15.f1).trans hdir.symm, hh15.f2, hh15.f3, hh15.f4,
                hh15.f5, hh15.f6, hh15.f7, hh15.f8, hh15.f9, hh15.f10,
                hh15.f11, hh15.f12, hh15.f13, hh15.f14, hh15.f15,
                hh15.f16, hh15.f17, hvac, fun hk _ => hh15.f18 hk⟩

theorem ca_sync_start_index_spec {σ : Type} (s : CaSync σ) :
    StartIndexSpec s := by
  cases hidx : s.index with
  | none =>
    refine ⟨?_, ?_, ?_, ?_, ?_, ?_, ?_, ?_, ?_, ?_, ?_, ?_, ?_, ?_, ?_, ?_, ?_, ?_, ?_, ?_⟩ <;>
      simp [ca_sync_start_index, hidx, indexOps]
  | some idx =>
    by_cases ho : idx.opened
    · refine ⟨?_, ?_, ?_, ?_, ?_, ?_, ?_, ?_, ?_, ?_, ?_, ?_, ?_, ?_, ?_, ?_, ?_, ?_, ?_, ?_⟩ <;>
        simp [ca_sync_start_index, hidx, ho, indexOps]
    · refine ⟨?_, ?_, ?_, ?_, ?_, ?_, ?_, ?_, ?_, ?_, ?_, ?_, ?_, ?_, ?_, ?_, ?_, ?_, ?_, ?_⟩ <;>
        simp [ca_sync_start_index, hidx, ho, indexOps]

theorem ca_sync_start_phase_a_spec {σ : Type} (s : CaSync σ) :
    PhaseASpec s := by
  by_cases hc : s.direction = .encode ∧ s.archive_path.isSome = true ∧
      s.archive_fd = none
  · have he : ca_sync_start_phase_a s =
        { s with
          temporary_archive_path := s.archive_path.map (fun p => p ++ ".tmp"),
          archive_fd := some 1000 } := by
      unfold ca_sync_start_phase_a
      rw [if_pos hc]
    exact ⟨by rw [he], by rw [he], by rw [he], by rw [he], by rw [he],
      by rw [he], by rw [he], by rw [he], by rw [he], by rw [he],
      by rw [he], by rw [he], by rw [he], by rw [he], by rw [he]⟩
  · have he : ca_sync_start_phase_a s = s := by
      unfold ca_sync_start_phase_a
      rw [if_neg hc]
    exact ⟨by rw [he], by rw [he], by rw [he], by rw [he], by rw [he],
      by rw [he], by rw [he], by rw [he], by rw [he], by rw [he],
      by rw [he], by rw [he], by rw [he], by rw [he], by rw [he]⟩

theorem ca_sync_start_spec {σ : Type} (s : CaSync σ) (r : Except CErr Unit)
    (s1 : CaSync σ) (h : ca_sync_start s = (r, s1)) :
    StartSpec s s1 := by
  unfold ca_sync_start at h
  set sA := ca_sync_start_phase_a s with hsA
  have hh16 := ca_sync_start_phase_a_spec s
  have a1 := hh16.f1
  have a2 := hh16.f2
  have a3 := hh16.f3
  have a4 := hh16.f4
  have a5 := hh16.f5
  have a6 := hh16.f6
  have a7 := hh16.f7
  have a8 := hh16.f8
  have a9 := hh16.f9
  have a10 := hh16.f10
  have a11 := hh16.f11
  have a12 := hh16.f12
  have a13 := hh16.f13
  have a14 := hh16.f14
  have a15 := hh16.f15
  rcases hE : ca_sync_start_encoder sA with ⟨rE, sE⟩
  have hh17 := ca_sync_start_encoder_spec sA rE sE hE
  have e1 := hh17.f1
  have e2 := hh17.f2
  have e3 := hh17.f3
  have e4 := hh17.f4
  have e5 := hh17.f5
  have e6 := hh17.f6
  have e7 := hh17.f7
  have e8 := hh17.f8
  have e9 := hh17.f9
  have e10 := hh17.f10
  have e16 := hh17.f16
  have e17 := hh17.f17
  have e18 := hh17.f18
  have e19 := hh17.f19
  have e20 := hh17.f20
  cases rE with
  | error e =>
    simp only [hE] at h
    injection h with h1 h2
    subst h1; subst h2
    exact ⟨e1.trans a1, e2.trans a2, e3.trans a3, e4.trans a4, e5.trans a5,
      e6.trans a6, e7.trans a7, e9.trans a8, e10.trans a9, e16.trans a10,
      e17.trans a11, e19.trans a12,
      fun hn => by rw [e8, a13]; exact hn,
      fun e' he' => e20 e' (by rw [a14]; exact he'),
      fun d hd => by rw [e18, a15]; exact hd⟩
  | ok vE =>
    simp only [hE] at h
    rcases hD : ca_sync_start_decoder sE with ⟨rD, sD⟩
    have hh18 := ca_sync_start_decoder_spec sE rD sD hD
    have d1 := hh18.f1
    have d2 := hh18.f2
    have d3 := hh18.f3
    have d4 := hh18.f4
    have d5 := hh18.f5
    have d6 := hh18.f6
    have d7 := hh18.f7
    have d8 := hh18.f8
    have d9 := hh18.f9
    have d10 := hh18.f10
    have d14 := hh18.f14
    have d15 := hh18.f15
    have d16 := hh18.f16
    have d17 := hh18.f17
    have d18 := hh18.f18
    cases rD with
    | error e =>
      simp only [hD] at h
      injection h with h1 h2
      subst h1; subst h2
      exact ⟨d1.trans (e1.trans a1), d2.trans (e2.trans a2),
        d3.trans (e3.trans a3), d4.trans (e4.trans a4),
        d5.trans (e5.trans a5), d6.trans (e6.trans a6),
        d7.trans (e7.trans a7), d9.trans (e9.trans a8),
        d10.trans (e10.trans a9), d14.trans (e16.trans a10),
        d15.trans (e17.trans a11), d17.trans (e19.trans a12),
        fun hn => by rw [d8, e8, a13]; exact hn,
        fun e' he' => by
          rw [d16]
          exact e20 e' (by rw [a14]; exact he'),
        fun d' hd' => d18 d' (by rw [e18, a15]; exact hd')⟩
    | ok vD =>
      simp only [hD] at h
      injection h with h1 h2
      subst h1; subst h2
      have hh19 := ca_sync_start_index_spec sD
      have i1 := hh19.f1
      have i2 := hh19.f2
      have i3 := hh19.f3
      have i4 := hh19.f4
      have i5 := hh19.f5
      have i6 := hh19.f6
      have i7 := hh19.f7
      have i8 := hh19.f8
      have i9 := hh19.f9
      have i13 := hh19.f13
      have i14 := hh19.f14
      have i15 := hh19.f15
      have i16 := hh19.f16
      have i17 := hh19.f17
      have i18 := hh19.f18
      refine ⟨i1.trans (d1.trans (e1.trans a1)),
        i2.trans (d2.trans (e2.trans a2)),
        i3.trans (d3.trans (e3.trans a3)),
        i4.trans (d4.trans (e4.trans a4)),
        i5.trans (d5.trans (e5.trans a5)),
        i6.trans (d6.trans (e6.trans a6)),
        i7.trans (d7.trans (e7.trans a7)),
        i8.trans (d9.trans (e9.trans a8)),
        i9.trans (d10.trans (e10.trans a9)),
        i13.trans (d14.trans (e16.trans a10)),
        i14.trans (d15.trans (e17.trans a11)),
        i17.trans (d17.trans (e19.trans a12)),
        fun hn => i18 (by rw [d8, e8, a13]; exact hn),
        fun e' he' => by
          rw [i15, d16]
          exact e20 e' (by rw [a14]; exact he'),
        fun d' hd' => by
          rw [i16]
          exact d18 d' (by rw [e18, a15]; exact hd')⟩

theorem ca_sync_start_ok_started {σ : Type} (s : CaSync σ) (s1 : CaSync σ)
    (h : ca_sync_start s = (.ok (), s1)) : Started s1 := by
  unfold ca_sync_start at h
  set sA := ca_sync_start_phase_a s with hsA
  have hh20 := ca_sync_start_phase_a_spec s
  have a1 := hh20.f1
  have hAfd : sA.archive_path.isSome = true → sA.archive_fd.isSome = true ∨
      ¬ s.direction = .encode := by
    rw [hsA]
    unfold ca_sync_start_phase_a
    by_cases hc : s.direction = .encode ∧ s.archive_path.isSome ∧
        s.archive_fd = none
    · rw [if_pos hc]
      intro _
      left
      rfl
    · rw [if_neg hc]
      intro hp
      by_cases hdir : s.direction = .encode
      · cases hfd : s.archive_fd with
        | none => exact absurd ⟨hdir, hp, hfd⟩ hc
        | some fd => left; rfl
      · right; exact hdir
  rcases hE : ca_sync_start_encoder sA with ⟨rE, sE⟩
  have hh21 := ca_sync_start_encoder_spec sA rE sE hE
  have e1 := hh21.f1
  have e11 := hh21.f11
  have e12 := hh21.f12
  have e21 := hh21.f21
  cases rE with
  | error e =>
    simp only [hE] at h
    exact absurd h (by simp)
  | ok vE =>
    simp only [hE] at h
    rcases hD : ca_sync_start_decoder sE with ⟨rD, sD⟩
    have hh22 := ca_sync_start_decoder_spec sE rD sD hD
    have d1 := hh22.f1
    have d11 := hh22.f11
    have d12 := hh22.f12
    have d16 := hh22.f16
    have d19 := hh22.f19
    cases rD with
    | error e =>
      simp only [hD] at h
      exact absurd h (by simp)
    | ok vD =>
      simp only [hD] at h
      injection h with h1 h2
      subst h2
      have hh23 := ca_sync_start_index_spec sD
      have i1 := hh23.f1
      have i10 := hh23.f10
      have i11 := hh23.f11
      have i15 := hh23.f15
      have i16 := hh23.f16
      have i20 := hh23.f20
      constructor
      · intro hdir
        have hdirA : sA.direction = .encode := by
          rw [i1, d1, e1] at hdir
          exact hdir
        constructor
        · rw [i15, d16]
          exact e21 rfl hdirA
        · intro hpath
          have hpA : sA.archive_path.isSome = true := by
            rw [i11, d12, e12] at hpath
            exact hpath
          rcases hAfd hpA with hfd | hnd
          · rw [i10, d11, e11]
            exact hfd
          · exact absurd (a1.symm.trans hdirA) hnd
      constructor
      · intro hdir
        have hdirE : sE.direction = .decode := by
          rw [i1, d1] at hdir
          exact hdir
        rw [i16]
        exact d19 rfl hdirE
      · exact i20

theorem started_isStarted {σ : Type} (s : CaSync σ) (hs : Started s) :
    IsStarted s := by
  obtain ⟨hen, hde, hidx⟩ := hs
  have hcondF : ¬(s.direction = .encode ∧ s.archive_path.isSome = true ∧
      s.archive_fd = none) := by
    rintro ⟨hdir, hpath, hfd⟩
    have := (hen hdir).2 hpath
    rw [hfd] at this
    exact absurd this (by simp)
  have hEncId : ca_sync_start_encoder s = (.ok (), s) := by
    cases hdir : s.direction with
    | encode =>
      obtain ⟨e, he⟩ := Option.isSome_iff_exists.mp ((hen hdir).1)
      simp only [ca_sync_start_encoder, hdir, he]
    | decode => simp only [ca_sync_start_encoder, hdir]
  have hDecId : ca_sync_start_decoder s = (.ok (), s) := by
    cases hdir : s.direction with
    | encode => simp only [ca_sync_start_decoder, hdir]
    | decode =>
      obtain ⟨d, hd⟩ := Option.isSome_iff_exists.mp (hde hdir)
      simp only [ca_sync_start_decoder, hdir, hd]
  have hIdxId : ca_sync_start_index s = s := by
    cases hi : s.index with
    | none => simp only [ca_sync_start_index, hi]
    | some idx =>
      simp only [ca_sync_start_index, hi, hidx idx hi, if_pos]
  have hPa : ca_sync_start_phase_a s = s := by
    unfold ca_sync_start_phase_a
    rw [if_neg hcondF]
  show ca_sync_start s = (.ok (), s)
  unfold ca_sync_start
  rw [hPa, hEncId]
  simp only []
  rw [hDecId]
  simp only []
  rw [hIdxId]

theorem openedMap_preserved {σ : Type} {s s' : CaSync σ}
    (hmap : s'.index.map CaIndex.opened = s.index.map CaIndex.opened)
    (hop : ∀ idx, s.index = some idx → idx.opened = true) :
    ∀ idx, s'.index = some idx → idx.opened = true := by
  intro idx hi
  rw [hi] at hmap
  cases hs : s.index with
  | none =>
    rw [hs] at hmap
    exact absurd hmap (by simp)
  | some idx0 =>
    rw [hs] at hmap
    simp only [Option.map_some'] at hmap
    injection hmap with hmap'
    rw [hmap']
    exact hop idx0 hs

theorem ca_sync_get_congr {σ : Type} (s s1 : CaSync σ) (id : ObjectID)
    (hw : s1.wstore = s.wstore) (hr : s1.rstores = s.rstores) :
    ca_sync_get s1 id = ca_sync_get s id := by
  unfold ca_sync_get
  rw [hw, hr]

/-- Request service that only replaces the index object, keeping its
opened flag, satisfies the request postcondition. -/
theorem prs_index_up {σ : Type} (s : CaSync σ) (idx i : CaIndex)
    (hi : s.index = some idx) (hop : i.opened = idx.opened) :
    ProcessRequestSpec s { s with index := some i } :=
  ⟨rfl, rfl, rfl, rfl, rfl, rfl, rfl, rfl, rfl, rfl, rfl, rfl, rfl, rfl,
   rfl, rfl, rfl,
   (congrArg Option.some hop).trans
     (congrArg (Option.map CaIndex.opened) hi).symm,
   fun hn => Option.noConfusion (hi.symm.trans hn)⟩

theorem ca_sync_process_decoder_request_spec {σ : Type} (s : CaSync σ)
    (r : Except CErr Unit) (s2 : CaSync σ)
    (h : ca_sync_process_decoder_request s = (r, s2)) :
    ProcessRequestSpec s s2 := by
  revert h
  unfold ca_sync_process_decoder_request ca_index_read_object
  cases hi : s.index with
  | none =>
    cases hfd : s.archive_fd with
    | none =>
      intro h
      injection h with h1 h2
      subst h1; subst h2
      exact ⟨rfl, rfl, rfl, rfl, rfl, rfl, rfl, rfl, rfl, rfl, rfl, rfl,
        rfl, rfl, rfl, rfl, rfl, rfl, fun h9 => ⟨h9, rfl⟩⟩
    | some fd =>
      cases hdec : s.decoder with
      | none =>
        intro h
        injection h with h1 h2
        subst h1; subst h2
        exact ⟨rfl, rfl, rfl, rfl, rfl, rfl, rfl, rfl, rfl, rfl, rfl, rfl,
          rfl, rfl, rfl, rfl, rfl, rfl, fun h9 => ⟨h9, rfl⟩⟩
      | some dec =>
        intro h
        injection h with h1 h2
        subst h1; subst h2
        exact ⟨rfl, rfl, rfl, rfl, rfl, rfl, rfl, rfl, rfl, hfd.symm, rfl,
          rfl, rfl, rfl, rfl, rfl, (congrArg Option.isSome hdec).symm, (congrArg (Option.map CaIndex.opened) hi).symm,
          fun h9 => ⟨rfl, rfl⟩⟩
  | some idx =>
    dsimp only
    cases hreads : idx.reads with
    | nil =>
      intro h
      injection h with h1 h2
      subst h1; subst h2
      exact prs_index_up s idx _ hi rfl
    | cons hd tl =>
      cases hd with
      | fail e =>
        intro h
        injection h with h1 h2
        subst h1; subst h2
        exact prs_index_up s idx _ hi rfl
      | eofMark =>
        cases hdec : s.decoder with
        | none =>
          intro h
          injection h with h1 h2
          subst h1; subst h2
          exact ⟨rfl, rfl, rfl, rfl, rfl, rfl, rfl, rfl, rfl, rfl, rfl,
            rfl, rfl, rfl, rfl, rfl, (congrArg Option.isSome hdec).symm, (congrArg (Option.map CaIndex.opened) hi).symm,
            fun hn => Option.noConfusion (hi.symm.trans hn)⟩
        | some dec =>
          intro h
          injection h with h1 h2
          subst h1; subst h2
          exact ⟨rfl, rfl, rfl, rfl, rfl, rfl, rfl, rfl, rfl, rfl, rfl,
            rfl, rfl, rfl, rfl, rfl, (congrArg Option.isSome hdec).symm, (congrArg (Option.map CaIndex.opened) hi).symm,
            fun hn => Option.noConfusion (hi.symm.trans hn)⟩
      | record id sz =>
        dsimp only
        cases hget : ca_sync_get
            { s with index := some { idx with reads := tl } } id with
        | error e =>
          intro h
          injection h with h1 h2
          subst h1; subst h2
          exact prs_index_up s idx _ hi rfl
        | ok p =>
          dsimp only
          by_cases hsz : sz ≠ p.length
          · rw [if_pos hsz]
            intro h
            injection h with h1 h2
            subst h1; subst h2
            exact prs_index_up s idx _ hi rfl
          · rw [if_neg hsz]
            cases hdec : s.decoder with
            | none =>
              intro h
              injection h with h1 h2
              subst h1; subst h2
              exact ⟨rfl, rfl, rfl, rfl, rfl, rfl, rfl, rfl, rfl, rfl,
                rfl, rfl, rfl, rfl, rfl, rfl, (congrArg Option.isSome hdec).symm, (congrArg (Option.map CaIndex.opened) hi).symm,
                fun hn => Option.noConfusion (hi.symm.trans hn)⟩
            | some dec =>
              intro h
              injection h with h1 h2
              subst h1; subst h2
              have hh24 := ca_sync_write_archive_digest_spec ({ s with index := some { idx with reads := tl }, decoder := some { dec with fed := dec.fed ++ [p] } }) p
              have hh24b := ca_sync_write_archive_digest_base ({ s with index := some { idx with reads := tl }, decoder := some { dec with fed := dec.fed ++ [p] } }) p
              refine ⟨hh24.f1, hh24.f2, hh24.f4, hh24.f5,
                hh24.f15,
                hh24.f12,
                hh24.f13, hh24.f9,
                hh24.f14, hh24.f6,
                hh24.f7, hh24.f8, hh24b.1,
                hh24b.2.1, hh24.f10, hh24b.2.2,
                ?_, ?_, fun hn => ?_⟩
              · rw [hh24.f3]
                exact (congrArg Option.isSome hdec).symm
              · rw [hh24.f11]
                exact (congrArg (Option.map CaIndex.opened) hi).symm
              · exact Option.noConfusion (hi.symm.trans hn)

/-- A state whose frame fields agree with a Started encode-direction
state, and whose encoder slot is occupied, is itself Started. -/
theorem started_after_encode_step {σ : Type} {s s3 : CaSync σ}
    (hdir : s.direction = .encode) (hst : Started s)
    (p1 : s3.direction = s.direction) (p2 : s3.encoder.isSome = true)
    (p6 : s3.archive_fd = s.archive_fd) (p7 : s3.archive_path = s.archive_path)
    (p11 : s3.index.map CaIndex.opened = s.index.map CaIndex.opened) :
    Started s3 := by
  refine ⟨fun _ => ⟨p2, fun hpath => ?_⟩, fun hd => ?_, ?_⟩
  · rw [p6]
    refine (hst.1 hdir).2 ?_
    rw [p7] at hpath
    exact hpath
  · exact CaDirection.noConfusion (hdir.symm.trans (p1.symm.trans hd))
  · exact openedMap_preserved p11 hst.2.2

theorem ca_sync_step_encode_master {σ : Type}
    (scan : σ → List Byte → Option Nat × σ) (H : List Byte → ObjectID)
    (s : CaSync σ) (r : Except CErr CaSyncResult) (s' : CaSync σ)
    (h : ca_sync_step_encode scan H s = (r, s')) :
    EncodeStepSpec s r s' := by
  revert h
  unfold ca_sync_step_encode
  cases heof : s.eof
  · rw [if_neg Bool.false_ne_true]
    cases henc0 : s.encoder with
    | none =>
      intro h
      injection h with h1 h2
      subst h1; subst h2
      exact ⟨fun _ _ _ => rfl, fun res hr => Except.noConfusion hr,
        fun res hr => Except.noConfusion hr⟩
    | some enc0 =>
      dsimp only
      cases hscript : enc0.script with
      | nil =>
        intro h
        injection h with h1 h2
        subst h1; subst h2
        exact ⟨fun _ _ _ => rfl, fun res hr => Except.noConfusion hr,
          fun res hr => Except.noConfusion hr⟩
      | cons hd0 rest =>
        cases hd0 with
        | fail e =>
          intro h
          injection h with h1 h2
          subst h1; subst h2
          exact ⟨fun _ _ _ => rfl, fun res hr => Except.noConfusion hr,
            fun res hr => Except.noConfusion hr⟩
        | finished =>
          dsimp only
          have hcontra : ∀ enc, s.encoder = some enc →
              enc.script.head? ≠ some CaEncoderResult.finished → False := by
            intro enc he hh
            cases Option.some.inj (henc0.symm.trans he)
            exact hh (by rw [hscript]; rfl)
          cases hcond : s.temporary_archive_path.isSome && s.archive_path.isSome
          · rw [if_neg Bool.false_ne_true]
            intro h
            split at h
            · injection h with h1 h2
              subst h1; subst h2
              exact ⟨fun enc he hh => (hcontra enc he hh).elim,
                fun res hr => Except.noConfusion hr,
                fun res hr => Except.noConfusion hr⟩
            · rename_i v s3 hfc
              injection h with h1 h2
              subst h1; subst h2
              have hhFC := ca_sync_write_final_chunk_spec H _ _ _ hfc
              refine ⟨fun enc he hh => (hcontra enc he hh).elim,
                fun res hr hdir hw hinv => ?_, fun res hr hdir hst => ?_⟩
              · refine ⟨hhFC.f1.f1.trans hdir, by rw [hhFC.f1.f4]; exact hw,
                  fun hne => absurd (Except.ok.inj hr).symm hne, fun _ => ?_⟩
                show chunkConcat s3 = digestStream s3
                have hcc3 : chunkConcat s3 = chunkConcat s ++ s.buffer :=
                  hhFC.f6 rfl hw
                rw [hcc3, hinv]
                exact hhFC.f3.symm
              · exact ⟨started_after_encode_step hdir hst hhFC.f1.f1
                  (congrArg Option.isSome hhFC.f1.f2) hhFC.f1.f6
                  hhFC.f1.f7 hhFC.f1.f11, fun _ => rfl⟩
          · rw [if_pos rfl]
            intro h
            split at h
            · injection h with h1 h2
              subst h1; subst h2
              exact ⟨fun enc he hh => (hcontra enc he hh).elim,
                fun res hr => Except.noConfusion hr,
                fun res hr => Except.noConfusion hr⟩
            · rename_i v s3 hfc
              injection h with h1 h2
              subst h1; subst h2
              have hhFC := ca_sync_write_final_chunk_spec H _ _ _ hfc
              refine ⟨fun enc he hh => (hcontra enc he hh).elim,
                fun res hr hdir hw hinv => ?_, fun res hr hdir hst => ?_⟩
              · refine ⟨hhFC.f1.f1.trans hdir, by rw [hhFC.f1.f4]; exact hw,
                  fun hne => absurd (Except.ok.inj hr).symm hne, fun _ => ?_⟩
                show chunkConcat s3 = digestStream s3
                have hcc3 : chunkConcat s3 = chunkConcat s ++ s.buffer :=
                  hhFC.f6 rfl hw
                rw [hcc3, hinv]
                exact hhFC.f3.symm
              · exact ⟨started_after_encode_step hdir hst hhFC.f1.f1
                  (congrArg Option.isSome hhFC.f1.f2) hhFC.f1.f6
                  hhFC.f1.f7 hhFC.f1.f11, fun _ => rfl⟩
        | data p =>
          dsimp only
          intro h
          split at h
          · rename_i e s4 hfeed
            injection h with h1 h2
            subst h1; subst h2
            exact ⟨fun _ _ _ =>
              (ca_sync_encode_feed_spec scan H _ p _ _ hfeed).f1.f10,
              fun res hr => Except.noConfusion hr,
              fun res hr => Except.noConfusion hr⟩
          · rename_i v s4 hfeed
            injection h with h1 h2
            subst h1; subst h2
            have hhF := ca_sync_encode_feed_spec scan H _ p _ _ hfeed
            refine ⟨fun _ _ _ => hhF.f1.f10,
              fun res hr hdir hw hinv => ?_, fun res hr hdir hst => ?_⟩
            · refine ⟨hhF.f1.f1.trans hdir, by rw [hhF.f1.f4]; exact hw,
                fun _ => ?_, fun hfin =>
                  CaSyncResult.noConfusion ((Except.ok.inj hr).trans hfin)⟩
              have hfk := hhF.f4 rfl
              show chunkConcat s4 ++ s4.buffer = digestStream s4
              have hsink : chunkConcat s4 ++ s4.buffer =
                  (chunkConcat s ++ s.buffer) ++ p := hfk.2.2.2.1 hw
              rw [hsink, hinv, hfk.1]
              rfl
            · exact ⟨started_after_encode_step hdir hst hhF.f1.f1
                (congrArg Option.isSome hhF.f1.f2) hhF.f1.f6
                hhF.f1.f7 hhF.f1.f11,
                fun hres =>
                  CaSyncResult.noConfusion ((Except.ok.inj hr).trans hres)⟩
        | next_file p =>
          dsimp only
          intro h
          split at h
          · rename_i e s4 hfeed
            injection h with h1 h2
            subst h1; subst h2
            exact ⟨fun _ _ _ =>
              (ca_sync_encode_feed_spec scan H _ p _ _ hfeed).f1.f10,
              fun res hr => Except.noConfusion hr,
              fun res hr => Except.noConfusion hr⟩
          · rename_i v s4 hfeed
            injection h with h1 h2
            subst h1; subst h2
            have hhF := ca_sync_encode_feed_spec scan H _ p _ _ hfeed
            refine ⟨fun _ _ _ => hhF.f1.f10,
              fun res hr hdir hw hinv => ?_, fun res hr hdir hst => ?_⟩
            · refine ⟨hhF.f1.f1.trans hdir, by rw [hhF.f1.f4]; exact hw,
                fun _ => ?_, fun hfin =>
                  CaSyncResult.noConfusion ((Except.ok.inj hr).trans hfin)⟩
              have hfk := hhF.f4 rfl
              show chunkConcat s4 ++ s4.buffer = digestStream s4
              have hsink : chunkConcat s4 ++ s4.buffer =
                  (chunkConcat s ++ s.buffer) ++ p := hfk.2.2.2.1 hw
              rw [hsink, hinv, hfk.1]
              rfl
            · exact ⟨started_after_encode_step hdir hst hhF.f1.f1
                (congrArg Option.isSome hhF.f1.f2) hhF.f1.f6
                hhF.f1.f7 hhF.f1.f11,
                fun hres =>
                  CaSyncResult.noConfusion ((Except.ok.inj hr).trans hres)⟩
  · rw [if_pos rfl]
    intro h
    injection h with h1 h2
    subst h1; subst h2
    exact ⟨fun _ _ _ => rfl, fun res hr => Except.noConfusion hr,
      fun res hr => Except.noConfusion hr⟩

theorem ca_sync_step_encode_post {σ : Type}
    (scan : σ → List Byte → Option Nat × σ) (H : List Byte → ObjectID)
    (s : CaSync σ) (res : CaSyncResult) (s' : CaSync σ)
    (hdir : s.direction = .encode) (hst : Started s)
    (h : ca_sync_step_encode scan H s = (.ok res, s')) :
    Started s' ∧ (res = .finished → s'.eof = true) :=
  (ca_sync_step_encode_master scan H s (.ok res) s' h).f3 res rfl hdir hst

/-- A state whose frame fields agree with a Started decode-direction
state, and whose decoder slot is occupied, is itself Started. -/
theorem started_after_decode_step {σ : Type} {s s3 : CaSync σ}
    (hdir : s.direction = .decode) (hst : Started s)
    (p1 : s3.direction = s.direction) (p2 : s3.decoder.isSome = true)
    (p11 : s3.index.map CaIndex.opened = s.index.map CaIndex.opened) :
    Started s3 := by
  refine ⟨fun hd => ?_, fun _ => p2, ?_⟩
  · exact CaDirection.noConfusion (hdir.symm.trans (p1.symm.trans hd))
  · exact openedMap_preserved p11 hst.2.2

theorem ca_sync_step_decode_master {σ : Type} (s : CaSync σ)
    (r : Except CErr CaSyncResult) (s' : CaSync σ)
    (h : ca_sync_step_decode s = (r, s')) :
    DecodeStepSpec s r s' := by
  revert h
  unfold ca_sync_step_decode
  cases heof : s.eof
  · rw [if_neg Bool.false_ne_true]
    cases hdec : s.decoder with
    | none =>
      intro h
      injection h with h1 h2
      subst h1; subst h2
      exact ⟨rfl, fun res hr => Except.noConfusion hr,
        fun res hr => Except.noConfusion hr⟩
    | some dec =>
      dsimp only
      cases hscript : dec.script with
      | nil =>
        intro h
        injection h with h1 h2
        subst h1; subst h2
        exact ⟨rfl, fun res hr => Except.noConfusion hr,
          fun res hr => Except.noConfusion hr⟩
      | cons hd0 rest =>
        cases hd0 with
        | fail e =>
          intro h
          injection h with h1 h2
          subst h1; subst h2
          exact ⟨rfl, fun res hr => Except.noConfusion hr,
            fun res hr => Except.noConfusion hr⟩
        | finished =>
          dsimp only
          intro h
          injection h with h1 h2
          subst h1; subst h2
          split
          · exact ⟨rfl, fun res hr hidx hdig => ⟨rfl, hidx, hdig⟩,
              fun res hr hdir hst =>
                ⟨started_after_decode_step hdir hst rfl rfl rfl,
                 fun _ => rfl⟩⟩
          · exact ⟨rfl, fun res hr hidx hdig => ⟨rfl, hidx, hdig⟩,
              fun res hr hdir hst =>
                ⟨started_after_decode_step hdir hst rfl rfl rfl,
                 fun _ => rfl⟩⟩
        | next_file =>
          intro h
          injection h with h1 h2
          subst h1; subst h2
          exact ⟨rfl, fun res hr hidx hdig => ⟨rfl, hidx, hdig⟩,
            fun res hr hdir hst =>
              ⟨started_after_decode_step hdir hst rfl rfl rfl,
               fun hres =>
                 CaSyncResult.noConfusion ((Except.ok.inj hr).trans hres)⟩⟩
        | dstep =>
          intro h
          injection h with h1 h2
          subst h1; subst h2
          exact ⟨rfl, fun res hr hidx hdig => ⟨rfl, hidx, hdig⟩,
            fun res hr hdir hst =>
              ⟨started_after_decode_step hdir hst rfl rfl rfl,
               fun hres =>
                 CaSyncResult.noConfusion ((Except.ok.inj hr).trans hres)⟩⟩
        | payload =>
          intro h
          injection h with h1 h2
          subst h1; subst h2
          exact ⟨rfl, fun res hr hidx hdig => ⟨rfl, hidx, hdig⟩,
            fun res hr hdir hst =>
              ⟨started_after_decode_step hdir hst rfl rfl rfl,
               fun hres =>
                 CaSyncResult.noConfusion ((Except.ok.inj hr).trans hres)⟩⟩
        | request =>
          dsimp only
          intro h
          split at h
          · rename_i e s2 hproc
            injection h with h1 h2
            subst h1; subst h2
            exact ⟨(ca_sync_process_decoder_request_spec _ _ _ hproc).f15,
              fun res hr => Except.noConfusion hr,
              fun res hr => Except.noConfusion hr⟩
          · rename_i v s2 hproc
            injection h with h1 h2
            subst h1; subst h2
            have hh29 := ca_sync_process_decoder_request_spec _ _ _ hproc
            refine ⟨hh29.f15, fun res hr hidx hdig => ?_,
              fun res hr hdir hst => ?_⟩
            · have hq := hh29.f19 hidx
              exact ⟨hh29.f1, hq.1, hq.2.trans hdig⟩
            · refine ⟨started_after_decode_step hdir hst hh29.f1 ?_ ?_,
                fun hres =>
                  CaSyncResult.noConfusion ((Except.ok.inj hr).trans hres)⟩
              · rw [hh29.f17]
                rfl
              · rw [hh29.f18]
  · rw [if_pos rfl]
    intro h
    injection h with h1 h2
    subst h1; subst h2
    exact ⟨rfl, fun res hr => Except.noConfusion hr,
      fun res hr => Except.noConfusion hr⟩

theorem ca_sync_step_decode_post {σ : Type} (s : CaSync σ)
    (res : CaSyncResult) (s' : CaSync σ)
    (hdir : s.direction = .decode) (hst : Started s)
    (h : ca_sync_step_decode s = (.ok res, s')) :
    Started s' ∧ (res = .finished → s'.eof = true) :=
  (ca_sync_step_decode_master s (.ok res) s' h).f3 res rfl hdir hst

theorem ca_sync_step_post {σ : Type}
    (scan : σ → List Byte → Option Nat × σ) (H : List Byte → ObjectID)
    (s : CaSync σ) (res : CaSyncResult) (s' : CaSync σ)
    (h : ca_sync_step scan H s = (.ok res, s')) :
    Started s' ∧ (res = .finished → s'.eof = true) := by
  unfold ca_sync_step at h
  rcases hs : ca_sync_start s with ⟨rs, s1⟩
  cases rs with
  | error e =>
    simp only [hs] at h
    exact absurd h (by simp)
  | ok v =>
    simp only [hs] at h
    have hstarted : Started s1 := ca_sync_start_ok_started s s1 hs
    cases hdir1 : s1.direction with
    | encode =>
      rw [hdir1] at h
      obtain ⟨hst', heof⟩ :=
        ca_sync_step_encode_post scan H s1 res s' hdir1 hstarted h
      exact ⟨hst', heof⟩
    | decode =>
      rw [hdir1] at h
      obtain ⟨hst', heof⟩ :=
        ca_sync_step_decode_post s1 res s' hdir1 hstarted h
      exact ⟨hst', heof⟩

theorem ca_sync_step_epipe {σ : Type}
    (scan : σ → List Byte → Option Nat × σ) (H : List Byte → ObjectID)
    (s : CaSync σ) (hst : Started s) (heof : s.eof = true) :
    ca_sync_step scan H s = (.error .epipe, s) := by
  have hid : ca_sync_start s = (.ok (), s) := started_isStarted s hst
  unfold ca_sync_step
  simp only [hid]
  cases hdir : s.direction with
  | encode =>
    show ca_sync_step_encode scan H s = (.error .epipe, s)
    simp [ca_sync_step_encode, heof]
  | decode =>
    show ca_sync_step_decode s = (.error .epipe, s)
    simp [ca_sync_step_decode, heof]

/-- Claim C5: for every driver, once a step has returned FINISHED the eof
latch is set and every subsequent call to step fails with the
broken-pipeline error (EPIPE), leaving the state unchanged; and
get_digest succeeds exactly when the latch is set: it returns busy
(EBUSY) for every call made before eof and returns the digest value —
the hash of the absorbed archive stream — after eof. -/
theorem C5_eof_latch {σ : Type}
    (scan : σ → List Byte → Option Nat × σ) (H : List Byte → ObjectID)
    (s s' : CaSync σ) :
    (ca_sync_step scan H s = (.ok .finished, s') →
      s'.eof = true ∧ ca_sync_step scan H s' = (.error .epipe, s')) ∧
    (s.eof = false → (ca_sync_get_digest H s).1 = .error .ebusy) ∧
    (s.eof = true → (ca_sync_get_digest H s).1 = .ok (H (digestStream s))) := by
  refine ⟨fun h => ?_, fun hne => ?_, fun he => ?_⟩
  · obtain ⟨hst', heof⟩ := ca_sync_step_post scan H s .finished s' h
    exact ⟨heof rfl, ca_sync_step_epipe scan H s' hst' (heof rfl)⟩
  · simp [ca_sync_get_digest, hne]
  · cases hd : s.archive_digest <;>
      simp [ca_sync_get_digest, he, ca_sync_allocate_archive_digest,
        digestStream, hd]

/-- Witness for C5 at a concrete ENCODE run: the one step returns
FINISHED, the next call fails with EPIPE, get_digest is busy before the
run and succeeds after it. -/
theorem C5_eof_latch_witness :
    exC5fin.eof = true ∧
    ca_sync_step exScanNone exH exC5fin = (.error .epipe, exC5fin) ∧
    (ca_sync_get_digest exH exC5).1 = .error .ebusy ∧
    (ca_sync_get_digest exH exC5fin).1 = .ok (exH (digestStream exC5fin)) := by
  obtain ⟨h1, h2, h3⟩ := C5_eof_latch exScanNone exH exC5 exC5fin
  have hstep : ca_sync_step exScanNone exH exC5 = (.ok .finished, exC5fin) :=
    rfl
  exact ⟨(h1 hstep).1, (h1 hstep).2, h2 rfl,
    (C5_eof_latch exScanNone exH exC5fin exC5fin).2.2 (h1 hstep).1⟩

theorem ca_sync_get_rstores_eq_cascade (l : List CaStore) (id : ObjectID) :
    ca_sync_get_rstores l id =
      spec_store_cascade (l.map (fun st => st.get id)) := by
  induction l with
  | nil => rfl
  | cons st rest ih =>
    cases hg : st.get id <;>
      simp [ca_sync_get_rstores, spec_store_cascade, hg, ih]

/-- Claim C6: for every driver and every object id, get(id) first
consults the writable store, then each seed store in registration order;
the first store whose result is not not-found determines the overall
result, which is returned unchanged whether it is success or another
error; if every store reports not-found, get returns not-found (ENOENT).
Stated as: `ca_sync_get` equals the cascade the spec describes, applied
to the list of individual store results, writable store first. -/
theorem C6_store_fanin {σ : Type} (s : CaSync σ) (id : ObjectID) :
    ca_sync_get s id =
      spec_store_cascade (ca_store_get_opt s.wstore id ::
        s.rstores.map (fun st => st.get id)) := by
  cases hw : ca_store_get_opt s.wstore id with
  | found b => simp [ca_sync_get, spec_store_cascade, hw]
  | fail e => simp [ca_sync_get, spec_store_cascade, hw]
  | notFound =>
    simp only [ca_sync_get, spec_store_cascade, hw]
    exact ca_sync_get_rstores_eq_cascade s.rstores id

/-- Claim C7: within each exclusive configuration group — base, archive,
index — once one setter of the group has succeeded, the other setter of
the group fails with busy (EBUSY), in either call order (for a valid
descriptor argument, which otherwise fails EINVAL first). -/
theorem C7_setter_busy {σ : Type} (s : CaSync σ) (w : World) (fd fd2 : Int)
    (path path2 : String) (b b2 : CaIndexBehavior) :
    ((ca_sync_set_base_fd s fd).1 = .ok () →
      (ca_sync_set_base_path (ca_sync_set_base_fd s fd).2 w path2).1 =
        .error .ebusy) ∧
    ((ca_sync_set_base_path s w path).1 = .ok () → 0 ≤ fd2 →
      (ca_sync_set_base_fd (ca_sync_set_base_path s w path).2 fd2).1 =
        .error .ebusy) ∧
    ((ca_sync_set_archive_fd s fd).1 = .ok () →
      (ca_sync_set_archive_path (ca_sync_set_archive_fd s fd).2 w path2).1 =
        .error .ebusy) ∧
    ((ca_sync_set_archive_path s w path).1 = .ok () → 0 ≤ fd2 →
      (ca_sync_set_archive_fd (ca_sync_set_archive_path s w path).2 fd2).1 =
        .error .ebusy) ∧
    ((ca_sync_set_index_fd s fd b).1 = .ok () →
      (ca_sync_set_index_path (ca_sync_set_index_fd s fd b).2 path2 b2).1 =
        .error .ebusy) ∧
    ((ca_sync_set_index_path s path b).1 = .ok () → 0 ≤ fd2 →
      (ca_sync_set_index_fd (ca_sync_set_index_path s path b).2 fd2 b2).1 =
        .error .ebusy) := by
  refine ⟨fun h => ?_, fun h hfd2 => ?_, fun h => ?_, fun h hfd2 => ?_,
    fun h => ?_, fun h hfd2 => ?_⟩
  · have hkey : (ca_sync_set_base_fd s fd).2.base_fd.isSome = true := by
      revert h
      unfold ca_sync_set_base_fd
      by_cases h1 : fd < 0
      · rw [if_pos h1]
        exact fun h => Except.noConfusion h
      · rw [if_neg h1]
        by_cases h2 : s.base_fd.isSome = true
        · rw [if_pos h2]
          exact fun h => Except.noConfusion h
        · rw [if_neg h2]
          by_cases h3 : s.base_mode.isSome = true
          · rw [if_pos h3]
            exact fun h => Except.noConfusion h
          · rw [if_neg h3]
            by_cases h4 : s.base_path.isSome = true
            · rw [if_pos h4]
              exact fun h => Except.noConfusion h
            · rw [if_neg h4]
              exact fun _ => rfl
    unfold ca_sync_set_base_path
    rw [if_pos hkey]
  · have hfd2' : ¬ fd2 < 0 := by omega
    have hkey : (ca_sync_set_base_path s w path).2.base_fd.isSome = true ∨
        (ca_sync_set_base_path s w path).2.base_path.isSome = true := by
      revert h
      unfold ca_sync_set_base_path
      by_cases h1 : s.base_fd.isSome = true
      · rw [if_pos h1]
        exact fun h => Except.noConfusion h
      · rw [if_neg h1]
        by_cases h2 : s.base_path.isSome = true
        · rw [if_pos h2]
          exact fun h => Except.noConfusion h
        · rw [if_neg h2]
          cases hod : w.open_dir path with
          | opened fd3 => exact fun _ => Or.inl rfl
          | failNotDir =>
            dsimp only
            by_cases hdir : s.direction = .encode
            · rw [if_pos hdir]
              cases hord : w.open_rd path with
              | error e => exact fun h => Except.noConfusion h
              | ok fd3 => exact fun _ => Or.inl rfl
            · rw [if_neg hdir]
              exact fun _ => Or.inr rfl
          | fail e =>
            dsimp only
            by_cases hdir : s.direction = .encode
            · rw [if_pos hdir]
              exact fun h => Except.noConfusion h
            · rw [if_neg hdir]
              exact fun _ => Or.inr rfl
    unfold ca_sync_set_base_fd
    rw [if_neg hfd2']
    by_cases hA : (ca_sync_set_base_path s w path).2.base_fd.isSome = true
    · rw [if_pos hA]
    · rw [if_neg hA]
      by_cases hB : (ca_sync_set_base_path s w path).2.base_mode.isSome = true
      · rw [if_pos hB]
      · rw [if_neg hB]
        rcases hkey with hk | hk
        · exact absurd hk hA
        · rw [if_pos hk]
  · have hkey : (ca_sync_set_archive_fd s fd).2.archive_fd.isSome = true := by
      revert h
      unfold ca_sync_set_archive_fd
      by_cases h1 : fd < 0
      · rw [if_pos h1]
        exact fun h => Except.noConfusion h
      · rw [if_neg h1]
        by_cases h2 : s.archive_fd.isSome = true
        · rw [if_pos h2]
          exact fun h => Except.noConfusion h
        · rw [if_neg h2]
          by_cases h3 : s.archive_path.isSome = true
          · rw [if_pos h3]
            exact fun h => Except.noConfusion h
          · rw [if_neg h3]
            exact fun _ => rfl
    unfold ca_sync_set_archive_path
    rw [if_pos hkey]
  · have hfd2' : ¬ fd2 < 0 := by omega
    have hkey :
        (ca_sync_set_archive_path s w path).2.archive_fd.isSome = true ∨
        (ca_sync_set_archive_path s w path).2.archive_path.isSome = true := by
      revert h
      unfold ca_sync_set_archive_path
      by_cases h1 : s.archive_fd.isSome = true
      · rw [if_pos h1]
        exact fun h => Except.noConfusion h
      · rw [if_neg h1]
        by_cases h2 : s.archive_path.isSome = true
        · rw [if_pos h2]
          exact fun h => Except.noConfusion h
        · rw [if_neg h2]
          by_cases hdir : s.direction = .encode
          · rw [if_pos hdir]
            exact fun _ => Or.inr rfl
          · rw [if_neg hdir]
            cases hord : w.open_rd path with
            | error e => exact fun h => Except.noConfusion h
            | ok fd3 => exact fun _ => Or.inl rfl
    unfold ca_sync_set_archive_fd
    rw [if_neg hfd2']
    by_cases hA :
        (ca_sync_set_archive_path s w path).2.archive_fd.isSome = true
    · rw [if_pos hA]
    · rw [if_neg hA]
      rcases hkey with hk | hk
      · exact absurd hk hA
      · rw [if_pos hk]
  · have hkey : (ca_sync_set_index_fd s fd b).2.index.isSome = true := by
      revert h
      unfold ca_sync_set_index_fd ca_sync_allocate_index
      by_cases h1 : fd < 0
      · rw [if_pos h1]
        exact fun h => Except.noConfusion h
      · rw [if_neg h1]
        by_cases h2 : s.index.isSome = true
        · rw [if_pos h2]
          exact fun h => Except.noConfusion h
        · rw [if_neg h2]
          exact fun _ => rfl
    unfold ca_sync_set_index_path ca_sync_allocate_index
    rw [if_pos hkey]
  · have hfd2' : ¬ fd2 < 0 := by omega
    have hkey : (ca_sync_set_index_path s path b).2.index.isSome = true := by
      revert h
      unfold ca_sync_set_index_path ca_sync_allocate_index
      by_cases h2 : s.index.isSome = true
      · rw [if_pos h2]
        exact fun h => Except.noConfusion h
      · rw [if_neg h2]
        exact fun _ => rfl
    unfold ca_sync_set_index_fd ca_sync_allocate_index
    rw [if_neg hfd2', if_pos hkey]

/-- Witness for C7 on a fresh ENCODE driver: each second setter of a
group fails busy after the first succeeded, in both orders. -/
theorem C7_setter_busy_witness :
    (ca_sync_set_base_path (ca_sync_set_base_fd exC7 3).2 exWorldOk "q").1 =
      .error .ebusy ∧
    (ca_sync_set_base_fd (ca_sync_set_base_path exC7 exWorldOk "p").2 4).1 =
      .error .ebusy ∧
    (ca_sync_set_archive_path
      (ca_sync_set_archive_fd exC7 3).2 exWorldOk "q").1 = .error .ebusy ∧
    (ca_sync_set_archive_fd
      (ca_sync_set_archive_path exC7 exWorldOk "p").2 4).1 = .error .ebusy ∧
    (ca_sync_set_index_path
      (ca_sync_set_index_fd exC7 3 exIdxBhv).2 "q" exIdxBhv).1 =
      .error .ebusy ∧
    (ca_sync_set_index_fd
      (ca_sync_set_index_path exC7 "p" exIdxBhv).2 4 exIdxBhv).1 =
      .error .ebusy := by
  have hh30 := C7_setter_busy exC7 exWorldOk 3 4 "p" "q" exIdxBhv exIdxBhv
  have c1 := hh30.1
  have c2 := hh30.2.1
  have c3 := hh30.2.2.1
  have c4 := hh30.2.2.2.1
  have c5 := hh30.2.2.2.2.1
  have c6 := hh30.2.2.2.2.2
  exact ⟨c1 rfl, c2 rfl (by omega), c3 rfl, c4 rfl (by omega), c5 rfl,
    c6 rfl (by omega)⟩

/-- Claim C8: in an index-driven DECODE run, when an index record
`(id, size)` is read and the store fan-in retrieves an object for that id
whose length differs from the index-declared size, the step fails with
bad-message (EBADMSG), and the retrieved bytes are not handed to the
decoder: the decoder has only its request consumed, its fed log is
unchanged. -/
theorem C8_size_mismatch {σ : Type}
    (scan : σ → List Byte → Option Nat × σ) (H : List Byte → ObjectID)
    (s : CaSync σ) (dec : CaDecoder) (idx : CaIndex) (id : ObjectID)
    (isz : Nat) (rrest : List CaIndexReadResult)
    (rest : List CaDecoderResult) (p : List Byte)
    (hst : IsStarted s) (hdir : s.direction = .decode) (heof : s.eof = false)
    (hdec : s.decoder = some dec)
    (hscript : dec.script = .request :: rest)
    (hidx : s.index = some idx)
    (hreads : idx.reads = .record id isz :: rrest)
    (hget : ca_sync_get s id = .ok p) (hne : isz ≠ p.length) :
    (ca_sync_step scan H s).1 = .error .ebadmsg ∧
    (ca_sync_step scan H s).2.decoder = some { dec with script := rest } := by
  have hid : ca_sync_start s = (.ok (), s) := hst
  have hreq : ca_sync_process_decoder_request
      ({ s with decoder := some { dec with script := rest },
                eof := false } : CaSync σ) =
      (.error .ebadmsg,
       { s with decoder := some { dec with script := rest },
                index := some { idx with reads := rrest },
                eof := false }) := by
    unfold ca_sync_process_decoder_request ca_index_read_object
    dsimp only
    rw [hidx]
    dsimp only
    rw [hreads]
    dsimp only
    rw [show ca_sync_get
        ({ s with decoder := some { dec with script := rest },
                  index := some { idx with reads := rrest },
                  eof := false } : CaSync σ)
        id = .ok p from hget]
    dsimp only
    rw [if_pos hne]
  have hsd : ca_sync_step_decode s =
      (.error .ebadmsg,
       { s with decoder := some { dec with script := rest },
                index := some { idx with reads := rrest },
                eof := false }) := by
    unfold ca_sync_step_decode
    rw [heof, if_neg Bool.false_ne_true, hdec]
    dsimp only
    rw [hscript]
    dsimp only
    rw [hreq]
  have hstep : ca_sync_step scan H s = ca_sync_step_decode s := by
    unfold ca_sync_step
    rw [hid]
    dsimp only
    rw [hdir]
  rw [hstep.trans hsd]
  exact ⟨rfl, rfl⟩

/-- Witness for C8 at a concrete run: index record declares size 2 but
the stored object is one byte long; the step fails EBADMSG and the
decoder's fed log stays empty. -/
theorem C8_size_mismatch_witness :
    (ca_sync_step exScanNone exH exC8).1 = .error .ebadmsg ∧
    (ca_sync_step exScanNone exH exC8).2.decoder =
      some { script := [], fed := [], fed_fd := false, eof_sent := false } := by
  exact C8_size_mismatch exScanNone exH exC8
    ⟨[CaDecoderResult.request], [], false, false⟩
    ⟨exWresOk, true, [],
      [CaIndexReadResult.record [9] 2, CaIndexReadResult.eofMark]⟩
    [9] 2 [CaIndexReadResult.eofMark] [] [7]
    rfl rfl rfl rfl rfl rfl rfl rfl (by decide)

/-- Claim C9: for every ENCODE step that obtains data from the encoder (a
DATA or NEXT_FILE result) and succeeds, every byte of that data is fed to
the archive file when an archive descriptor exists (and the file is
untouched when none does), to the archive digest, and to the chunker sink
when a writable store is configured (and no chunk state changes without
one); each sink's absorbed stream is extended by exactly the data bytes —
none dropped, none duplicated. -/
theorem C9_encode_tee {σ : Type}
    (scan : σ → List Byte → Option Nat × σ) (H : List Byte → ObjectID)
    (s s' : CaSync σ) (enc : CaEncoder) (res : CaSyncResult)
    (p : List Byte) (rest : List CaEncoderResult)
    (hst : IsStarted s) (hdir : s.direction = .encode) (heof : s.eof = false)
    (henc : s.encoder = some enc)
    (hscript : enc.script = .data p :: rest ∨ enc.script = .next_file p :: rest)
    (hstep : ca_sync_step scan H s = (.ok res, s')) :
    digestStream s' = digestStream s ++ p ∧
    (s.archive_fd.isSome = true → s'.archive_file = s.archive_file ++ p) ∧
    (s.archive_fd = none → s'.archive_file = s.archive_file) ∧
    (s.wstore.isSome = true → chunkSink s' = chunkSink s ++ p) ∧
    (s.wstore = none →
      s'.store_puts = s.store_puts ∧ s'.buffer = s.buffer) := by
  have hid : ca_sync_start s = (.ok (), s) := hst
  have hse : ca_sync_step scan H s = ca_sync_step_encode scan H s := by
    unfold ca_sync_step
    rw [hid]
    dsimp only
    rw [hdir]
  rw [hse] at hstep
  revert hstep
  unfold ca_sync_step_encode
  rw [heof, if_neg Bool.false_ne_true, henc]
  dsimp only
  rcases hscript with hsc | hsc
  · rw [hsc]
    dsimp only
    intro hstep
    split at hstep
    · exact Except.noConfusion (congrArg Prod.fst hstep)
    · rename_i v s4 hfeed
      injection hstep with h1 h2
      subst h2
      exact (ca_sync_encode_feed_spec scan H _ p _ _ hfeed).f4 rfl
  · rw [hsc]
    dsimp only
    intro hstep
    split at hstep
    · exact Except.noConfusion (congrArg Prod.fst hstep)
    · rename_i v s4 hfeed
      injection hstep with h1 h2
      subst h2
      exact (ca_sync_encode_feed_spec scan H _ p _ _ hfeed).f4 rfl

/-- Witness for C9 at a concrete step: one data byte reaches the archive
file, the digest and the chunker sink. -/
theorem C9_encode_tee_witness :
    digestStream (ca_sync_step exScanNone exH exC9).2 =
      digestStream exC9 ++ [5] ∧
    (ca_sync_step exScanNone exH exC9).2.archive_file =
      exC9.archive_file ++ [5] ∧
    chunkSink (ca_sync_step exScanNone exH exC9).2 = chunkSink exC9 ++ [5] := by
  obtain ⟨hd, ha1, ha2, hcs, hwn⟩ := C9_encode_tee exScanNone exH exC9
    (ca_sync_step exScanNone exH exC9).2 ⟨[CaEncoderResult.data [5]]⟩
    .step [5] [] rfl rfl rfl rfl (Or.inl rfl) rfl
  exact ⟨hd, ha1 rfl, hcs rfl⟩

/-- Claim C3 concerns the index-driven DECODE path
(ca_sync_process_decoder_request, casync.c:740-747): the source frees the
chunk buffer immediately after ca_decoder_put_data and only then passes
the same pointer to ca_sync_write_archive_digest, so the digest ingests
freed memory. The model logs this as `use_after_free`. This theorem
evaluates the code at the failing input: a one-record index-driven decode
request completes "successfully" with the use-after-free flag set — the
chunk bytes reach the decoder, but their absorption into the digest reads
a dangling allocation (undefined on real memory), contradicting the
claim that get_digest reliably returns the SHA-256 of the reconstructed
archive. -/
theorem C3_use_after_free :
    (ca_sync_step exScanNone exH exC3).1 = .ok .step ∧
    (ca_sync_step exScanNone exH exC3).2.use_after_free = true ∧
    (ca_sync_step exScanNone exH exC3).2.decoder.map CaDecoder.fed =
      some [[7]] := by
  exact ⟨rfl, rfl, rfl⟩

theorem ca_sync_step_decode_J {σ : Type} (s : CaSync σ)
    (res : CaSyncResult) (s' : CaSync σ)
    (hidx : s.index = none) (hdig : s.archive_digest = none)
    (h : ca_sync_step_decode s = (.ok res, s')) :
    s'.direction = s.direction ∧ s'.index = none ∧
    s'.archive_digest = none :=
  (ca_sync_step_decode_master s (.ok res) s' h).f2 res rfl hidx hdig

/-- Claim C10: for every DECODE run fed from a raw archive descriptor
only (no index configured), no bytes are ever absorbed into the archive
digest, so once the run reaches FINISHED, get_digest still succeeds and
returns the hash of the empty byte string — SHA-256 of "" — rather than
the digest of the archive, because it lazily allocates a fresh, empty
digest accumulator. -/
theorem C10_decode_raw_digest {σ : Type}
    (scan : σ → List Byte → Option Nat × σ) (H : List Byte → ObjectID)
    (fuel : Nat) :
    ∀ (s s' : CaSync σ),
      s.direction = .decode → s.index = none → s.archive_digest = none →
      ca_sync_run_until_finished scan H fuel s = some s' →
      s'.archive_digest = none ∧ s'.eof = true ∧
      (ca_sync_get_digest H s').1 = .ok (H []) := by
  induction fuel with
  | zero =>
    intro s s' _ _ _ hrun
    simp [ca_sync_run_until_finished] at hrun
  | succ n ih =>
    intro s s' hdir hidx hdig hrun
    simp only [ca_sync_run_until_finished] at hrun
    rcases hstep : ca_sync_step scan H s with ⟨r0, s0⟩
    cases r0 with
    | error e =>
      simp only [hstep] at hrun
      exact absurd hrun (by simp)
    | ok res =>
      have hJ : s0.direction = .decode ∧ s0.index = none ∧
          s0.archive_digest = none := by
        have hstep2 := hstep
        unfold ca_sync_step at hstep2
        rcases hs : ca_sync_start s with ⟨rs, s1⟩
        simp only [hs] at hstep2
        have hh32 := ca_sync_start_spec s rs s1 hs
        have a1 := hh32.f1
        have a7 := hh32.f7
        have a13 := hh32.f13
        cases rs with
        | error e => exact absurd hstep2 (by simp)
        | ok v =>
          have hd1 : s1.direction = .decode := a1.trans hdir
          simp only [hd1] at hstep2
          obtain ⟨j1, j2, j3⟩ := ca_sync_step_decode_J s1 res s0
            (a13 hidx) (a7.trans hdig) hstep2
          exact ⟨j1.trans hd1, j2, j3⟩
      obtain ⟨j1, j2, j3⟩ := hJ
      cases res with
      | finished =>
        simp only [hstep] at hrun
        injection hrun with hrun2
        subst hrun2
        have heof : s0.eof = true :=
          (ca_sync_step_post scan H s .finished s0 hstep).2 rfl
        refine ⟨j3, heof, ?_⟩
        simp [ca_sync_get_digest, heof, ca_sync_allocate_archive_digest, j3]
      | step =>
        simp only [hstep] at hrun
        exact ih s0 s' j1 j2 j3 hrun
      | next_file =>
        simp only [hstep] at hrun
        exact ih s0 s' j1 j2 j3 hrun

/-- Witness for C10 at a concrete run: a raw-descriptor decode reaches
FINISHED after one request served from the archive descriptor; the digest
accumulator was never touched and get_digest returns the hash of the
empty byte string. -/
theorem C10_decode_raw_digest_witness :
    exC10fin.archive_digest = none ∧ exC10fin.eof = true ∧
    (ca_sync_get_digest exH exC10fin).1 = .ok (exH []) := by
  exact C10_decode_raw_digest exScanNone exH 2 exC10 exC10fin rfl rfl rfl rfl

theorem ca_sync_step_encode_partition {σ : Type}
    (scan : σ → List Byte → Option Nat × σ) (H : List Byte → ObjectID)
    (s : CaSync σ) (res : CaSyncResult) (s' : CaSync σ)
    (hdir : s.direction = .encode) (hw : s.wstore.isSome = true)
    (hinv : chunkConcat s ++ s.buffer = digestStream s)
    (h : ca_sync_step scan H s = (.ok res, s')) :
    s'.direction = .encode ∧ s'.wstore.isSome = true ∧
    (res ≠ .finished → chunkConcat s' ++ s'.buffer = digestStream s') ∧
    (res = .finished → chunkConcat s' = digestStream s') := by
  revert h
  unfold ca_sync_step
  cases hs : ca_sync_start s with
  | mk rs s1 =>
    have hh33 := ca_sync_start_spec s rs s1 hs
    have hd1 : s1.direction = .encode := hh33.f1.trans hdir
    have hw1 : s1.wstore.isSome = true := by rw [hh33.f2]; exact hw
    have hcc1 : chunkConcat s1 = chunkConcat s := by
      unfold chunkConcat
      rw [hh33.f6]
    have hinv1 : chunkConcat s1 ++ s1.buffer = digestStream s1 := by
      rw [hcc1, hh33.f5]
      unfold digestStream
      rw [hh33.f7]
      exact hinv
    cases rs with
    | error e => exact fun h => Except.noConfusion (congrArg Prod.fst h)
    | ok v =>
      dsimp only
      rw [hd1]
      exact fun h =>
        (ca_sync_step_encode_master scan H s1 (.ok res) s' h).f2
          res rfl hd1 hw1 hinv1

/-- Claim C4: for every ENCODE run with a writable store configured that
reaches FINISHED, the chunks submitted to the store exactly partition the
archive byte stream: the concatenation of the chunk payloads, in the
order they were submitted (index order), equals the archive byte stream
byte-for-byte (the stream absorbed by the archive digest, which receives
every encoder byte). The hypothesis on the initial state says the
invariant "submitted chunks plus pending buffer = stream so far" holds,
which is trivially true of a fresh driver (all three empty). -/
theorem C4_chunk_partition {σ : Type}
    (scan : σ → List Byte → Option Nat × σ) (H : List Byte → ObjectID)
    (fuel : Nat) :
    ∀ (s s' : CaSync σ),
      s.direction = .encode → s.wstore.isSome = true →
      chunkConcat s ++ s.buffer = digestStream s →
      ca_sync_run_until_finished scan H fuel s = some s' →
      chunkConcat s' = digestStream s' := by
  induction fuel with
  | zero =>
    intro s s' _ _ _ hrun
    simp [ca_sync_run_until_finished] at hrun
  | succ n ih =>
    intro s s' hdir hw hinv hrun
    simp only [ca_sync_run_until_finished] at hrun
    rcases hstep : ca_sync_step scan H s with ⟨r0, s0⟩
    cases r0 with
    | error e =>
      simp only [hstep] at hrun
      exact absurd hrun (by simp)
    | ok res =>
      obtain ⟨j1, j2, j3, j4⟩ :=
        ca_sync_step_encode_partition scan H s res s0 hdir hw hinv hstep
      cases res with
      | finished =>
        simp only [hstep] at hrun
        injection hrun with hrun2
        subst hrun2
        exact j4 rfl
      | step =>
        simp only [hstep] at hrun
        exact ih s0 s' j1 j2 (j3 (by simp)) hrun
      | next_file =>
        simp only [hstep] at hrun
        exact ih s0 s' j1 j2 (j3 (by simp)) hrun

/-- Witness for C4 at a concrete run: two data bytes are cut into two
one-byte chunks; their concatenation equals the archive stream. -/
theorem C4_chunk_partition_witness :
    chunkConcat exC4fin = digestStream exC4fin ∧
    digestStream exC4fin = [1, 2] := by
  refine ⟨C4_chunk_partition exScanCutOne exH 2 exC4 exC4fin rfl rfl rfl rfl,
    rfl⟩

/-- Claim C2 counterexample: an ENCODE run with index and writable store
configured whose chunker cuts exactly at the end of the input, so the
pending buffer is empty when the encoder reports finished. The run
reaches FINISHED, but the index is never finalized: its operation log
holds only the object record — no set_digest, no EOF record, no close —
because ca_sync_write_final_chunk (casync.c:608) returns early on an
empty buffer, refuting the claim's "regardless of whether the pending
buffer is empty". -/
theorem C2_counterexample :
    ca_sync_run_until_finished exScanCutAll exH 2 exC2 = some exC2fin ∧
    exC2fin.eof = true ∧
    indexOps exC2fin = [CaIndexOp.object (exH [7]) 1] ∧
    CaIndexOp.eof_rec ∉ indexOps exC2fin ∧
    CaIndexOp.closed ∉ indexOps exC2fin ∧
    (∀ d, CaIndexOp.digest d ∉ indexOps exC2fin) := by
  refine ⟨rfl, rfl, rfl,
    fun hmem => CaIndexOp.noConfusion (List.mem_singleton.mp hmem),
    fun hmem => CaIndexOp.noConfusion (List.mem_singleton.mp hmem), ?_⟩
  intro d hd
  have hops : indexOps exC2fin = [CaIndexOp.object (exH [7]) 1] := rfl
  rw [hops] at hd
  simp at hd

theorem ca_sync_write_final_chunk_index_ops {σ : Type}
    (H : List Byte → ObjectID) (s : CaSync σ) (w0 : CaStore)
    (idx : CaIndex) (r : Except CErr Unit) (s' : CaSync σ)
    (buf ds : List Byte)
    (hw : s.wstore = some w0) (hb : ¬ s.buffer = [])
    (hidx : s.index = some idx)
    (h : ca_sync_write_final_chunk H s = (r, s')) (hok : r = .ok ())
    (hbuf : s.buffer = buf) (hds : digestStream s = ds) :
    s'.index.map CaIndex.ops = some (idx.ops ++
      [.object (H buf) buf.length, .digest (H ds), .eof_rec, .closed]) ∧
    digestStream s' = ds := by
  subst hbuf
  subst hds
  subst hok
  revert h
  unfold ca_sync_write_final_chunk
  rw [hw]
  dsimp only
  rw [if_neg hb]
  cases hchunk : ca_sync_write_one_chunk H s s.buffer with
  | mk rc s1 =>
    have hh38 := ca_sync_write_one_chunk_spec H _ _ _ _ hchunk
    have cdig := hh38.f4
    have cok := hh38.f8
    cases rc with
    | error e => exact fun h => Except.noConfusion (congrArg Prod.fst h)
    | ok v =>
      dsimp only
      have hidx1 : s1.index = some { idx with
          ops := idx.ops ++ [.object (H s.buffer) s.buffer.length] } :=
        (cok rfl).2.2 idx hidx
      rw [hidx1]
      dsimp only [ca_index_write_op]
      have l16 : digestStream (ca_sync_allocate_archive_digest s1) =
          digestStream s1 :=
        (ca_sync_allocate_archive_digest_spec s1).f16
      have harg : (ca_sync_allocate_archive_digest s1).archive_digest.getD [] =
          digestStream s := by
        show digestStream (ca_sync_allocate_archive_digest s1) = digestStream s
        rw [l16]
        unfold digestStream
        rw [cdig]
      cases hr1 : idx.wres
          (.digest (H ((ca_sync_allocate_archive_digest
            s1).archive_digest.getD []))) with
      | error e => exact fun h => Except.noConfusion (congrArg Prod.fst h)
      | ok v1 =>
        dsimp only
        cases hr2 : idx.wres .eof_rec with
        | error e => exact fun h => Except.noConfusion (congrArg Prod.fst h)
        | ok v2 =>
          dsimp only
          cases hr3 : idx.wres .closed with
          | error e => exact fun h => Except.noConfusion (congrArg Prod.fst h)
          | ok v3 =>
            intro h
            injection h with h1 h2
            subst h2
            constructor
            · simp only [harg]
              simp [List.append_assoc]
            · show digestStream (ca_sync_allocate_archive_digest s1) =
                digestStream s
              rw [l16]
              unfold digestStream
              rw [cdig]

/-- Claim C2, amended: in an ENCODE step in which the encoder reports
finished, when a writable store is configured and the pending buffer is
nonempty, the driver flushes the buffer tail as a final chunk and
finalizes the index: it appends the object record for the tail, writes
the digest of the archive byte stream via set_digest, appends the EOF
record, and closes the index — so the index's trailing digest equals the
hash of the archive byte stream. (As stated, the claim is false: the
source skips all of this when the pending buffer is empty or no writable
store is configured — see the counterexample.) -/
theorem C2_index_finalization_amended {σ : Type}
    (scan : σ → List Byte → Option Nat × σ) (H : List Byte → ObjectID)
    (s s0 : CaSync σ) (enc : CaEncoder) (rest : List CaEncoderResult)
    (w0 : CaStore) (idx : CaIndex)
    (hst : IsStarted s) (hdir : s.direction = .encode) (heof : s.eof = false)
    (henc : s.encoder = some enc) (hscript : enc.script = .finished :: rest)
    (hw : s.wstore = some w0) (hb : ¬ s.buffer = [])
    (hidx : s.index = some idx)
    (hstep : ca_sync_step scan H s = (.ok .finished, s0)) :
    s0.index.map CaIndex.ops = some (idx.ops ++
      [.object (H s.buffer) s.buffer.length, .digest (H (digestStream s)),
       .eof_rec, .closed]) ∧
    digestStream s0 = digestStream s := by
  have hid : ca_sync_start s = (.ok (), s) := hst
  simp only [ca_sync_step, hid, hdir, ca_sync_step_encode, heof, henc,
    hscript, Bool.false_eq_true, if_false] at hstep
  split at hstep
  · exact absurd hstep (by simp)
  · rename_i v s3 hfc
    injection hstep with h1 h2
    subst h2
    split at hfc
    · refine ca_sync_write_final_chunk_index_ops H _ w0 idx _ s3
        s.buffer (digestStream s) ?_ ?_ ?_ hfc rfl rfl rfl
      · exact hw
      · exact hb
      · exact hidx
    · refine ca_sync_write_final_chunk_index_ops H _ w0 idx _ s3
        s.buffer (digestStream s) ?_ ?_ ?_ hfc rfl rfl rfl
      · exact hw
      · exact hb
      · exact hidx

/-- Witness for the amended C2 at a concrete step: the finished step on a
driver with pending buffer [3] logs, in order, the object record, the
digest of the archive stream, the EOF record and the close. -/
theorem C2_index_finalization_amended_witness :
    (ca_sync_step exScanNone exH exC2am).2.index.map CaIndex.ops =
      some ([] ++ [CaIndexOp.object (exH [3]) 1,
        CaIndexOp.digest (exH (digestStream exC2am)), CaIndexOp.eof_rec,
        CaIndexOp.closed]) ∧
    digestStream (ca_sync_step exScanNone exH exC2am).2 =
      digestStream exC2am := by
  exact C2_index_finalization_amended exScanNone exH exC2am
    (ca_sync_step exScanNone exH exC2am).2 ⟨[CaEncoderResult.finished]⟩ []
    exStoreOk ⟨exWresOk, true, [], []⟩ rfl rfl rfl rfl rfl rfl (by decide)
    rfl rfl

theorem ca_sync_step_decode_fs {σ : Type} (s : CaSync σ)
    (r : Except CErr CaSyncResult) (s' : CaSync σ)
    (h : ca_sync_step_decode s = (r, s')) :
    s'.fs_file_at_archive_path = s.fs_file_at_archive_path :=
  (ca_sync_step_decode_master s r s' h).f1

theorem ca_sync_step_encode_fs {σ : Type}
    (scan : σ → List Byte → Option Nat × σ) (H : List Byte → ObjectID)
    (s : CaSync σ) (enc : CaEncoder)
    (r : Except CErr CaSyncResult) (s' : CaSync σ)
    (henc : s.encoder = some enc)
    (hhd : enc.script.head? ≠ some CaEncoderResult.finished)
    (h : ca_sync_step_encode scan H s = (r, s')) :
    s'.fs_file_at_archive_path = s.fs_file_at_archive_path :=
  (ca_sync_step_encode_master scan H s r s' h).f1 enc henc hhd

/-- Claim C1 counterexample: an ENCODE run with an archive_path whose
writable store rejects the final-chunk put. The first step succeeds; the
second step fails with no-space before any step has returned FINISHED —
yet the file has already appeared at archive_path, because the source
renames the temporary archive onto its target (casync.c:661-668) before
flushing the final chunk (casync.c:670). This refutes the claim that no
file appears at archive_path when a step fails before terminal
success. -/
theorem C1_counterexample :
    exC1.fs_file_at_archive_path = false ∧
    (ca_sync_step exScanNone exH exC1).1 = .ok .step ∧
    (ca_sync_step exScanNone exH exC1mid).1 = .error .enospc ∧
    (ca_sync_step exScanNone exH exC1mid).2.fs_file_at_archive_path = true :=
  ⟨rfl, rfl, rfl, rfl⟩

/-- Claim C1, amended: a step can place a file at archive_path only while
consuming a FINISHED encoder result — any step whose next encoder result
is not FINISHED (data, next_file, a failure, or an exhausted source)
leaves no file at archive_path if none was there before, in either
direction. (As stated, the claim is false: the rename of the temporary
archive onto its target precedes the final-chunk flush inside the
FINISHED branch, so an error in that flush — or in the index
finalization — leaves the file already at archive_path even though step
reported an error and never returned FINISHED; see the
counterexample.) -/
theorem C1_atomic_output_amended {σ : Type}
    (scan : σ → List Byte → Option Nat × σ) (H : List Byte → ObjectID)
    (s : CaSync σ) (enc : CaEncoder)
    (r : Except CErr CaSyncResult) (s' : CaSync σ)
    (henc : s.encoder = some enc)
    (hhd : enc.script.head? ≠ some CaEncoderResult.finished)
    (hfs : s.fs_file_at_archive_path = false)
    (h : ca_sync_step scan H s = (r, s')) :
    s'.fs_file_at_archive_path = false := by
  unfold ca_sync_step at h
  rcases hs : ca_sync_start s with ⟨rs, s1⟩
  have hh43 := ca_sync_start_spec s rs s1 hs
  have a10 := hh43.f10
  have a14 := hh43.f14
  have hfs1 : s1.fs_file_at_archive_path = false := a10.trans hfs
  cases rs with
  | error e =>
    simp only [hs] at h
    injection h with h1 h2
    subst h2
    exact hfs1
  | ok v =>
    simp only [hs] at h
    have henc1 : s1.encoder = some enc := a14 enc henc
    cases hdir1 : s1.direction with
    | encode =>
      rw [hdir1] at h
      exact (ca_sync_step_encode_fs scan H s1 enc r s' henc1 hhd h).trans hfs1
    | decode =>
      rw [hdir1] at h
      exact (ca_sync_step_decode_fs s1 r s' h).trans hfs1

/-- Witness for the amended C1 at a concrete step: a data step on a
started ENCODE driver leaves no file at archive_path. -/
theorem C1_atomic_output_amended_witness :
    exC1am.encoder = some ⟨[CaEncoderResult.data [2]]⟩ ∧
    (⟨[CaEncoderResult.data [2]]⟩ : CaEncoder).script.head? ≠
      some CaEncoderResult.finished ∧
    exC1am.fs_file_at_archive_path = false ∧
    (ca_sync_step exScanNone exH exC1am).2.fs_file_at_archive_path = false :=
  ⟨rfl, by simp, rfl,
   C1_atomic_output_amended exScanNone exH exC1am
     ⟨[CaEncoderResult.data [2]]⟩ (ca_sync_step exScanNone exH exC1am).1
     (ca_sync_step exScanNone exH exC1am).2 rfl (by simp) rfl rfl⟩

end Casync
